import Mathlib

/-!
# NoteWorthy backend — verification of the read-resolution cache core

A shallow embedding of the catalogue cache, entity resolver and query
engine of the NoteWorthy backend (`backend/cache.py`,
`backend/services/fragrance_service.py`, `backend/routes/fragrances.py`,
`backend/routes/discovery.py`), together with theorems settling the
specification claims about them.

Conventions of the embedding:
* Firestore documents are records whose optional fields are `Option`s;
  `d.get(key, default)` becomes `Option.getD`.
* Python `float` values carried by the data model (ratings, prices,
  similarity scores, wall-clock times) are modelled as exact rationals.
* Python dict lookup tables are modelled as functions `String → Option _`;
  dict insertion overwrites.
* Python's `sorted`/`list.sort` (a stable sort) is modelled by
  `List.insertionSort` with the non-strict key relation, which computes
  the same, unique, stable result (sortedness, permutation and stability
  are proved below rather than assumed).
-/

namespace NoteWorthy

/-! ## Data model (backend/cache.py, fragrance_service.py docstrings) -/

/-- A brand as served: `{id, name, country, foundedYear?}`. -/
structure Brand where
  id : String
  name : String
  country : String
  foundedYear : Option Int
deriving DecidableEq

/-- An olfactory note as served: `{id, name, family?}`. -/
structure Note where
  id : String
  name : String
  family : Option String
deriving DecidableEq

/-- The `ratings` map of a resolved fragrance; every field defaulted to 0. -/
structure Ratings where
  overall : ℚ
  longevity : ℚ
  sillage : ℚ
  value : ℚ
  reviewCount : Int
deriving DecidableEq

/-- The optional `price` map of a resolved fragrance. -/
structure Price where
  amount : ℚ
  currency : String
  size : String
deriving DecidableEq

/-- The three resolved note layers of a fragrance. -/
structure ResolvedNotes where
  top : List Note
  middle : List Note
  base : List Note
deriving DecidableEq

/-- A fully resolved (denormalized) fragrance, as produced by the cache
and served to clients. -/
structure Fragrance where
  id : String
  name : String
  brand : Brand
  releaseYear : Int
  concentration : String
  gender : String
  description : String
  perfumer : Option String
  imageUrl : String
  notes : ResolvedNotes
  ratings : Ratings
  price : Option Price
deriving DecidableEq

/-! ### Raw Firestore documents

`doc.id` is always present (a Firestore document id); the payload fields
(`doc.to_dict()`) may each be absent, which `data.get(key, default)`
maps to a default. -/

/-- A raw document of the `brands` collection. -/
structure BrandDoc where
  id : String
  name : Option String
  country : Option String
  foundedYear : Option Int
deriving DecidableEq

/-- A raw document of the `notes` collection. -/
structure NoteDoc where
  id : String
  name : Option String
  family : Option String
deriving DecidableEq

/-- The raw `notes` field of a fragrance document: three id arrays. -/
structure RawNotes where
  top : Option (List String)
  middle : Option (List String)
  base : Option (List String)
deriving DecidableEq

/-- The raw `ratings` field of a fragrance document. -/
structure RawRatings where
  overall : Option ℚ
  longevity : Option ℚ
  sillage : Option ℚ
  value : Option ℚ
  reviewCount : Option Int
deriving DecidableEq

/-- The raw `price` field of a fragrance document. -/
structure RawPrice where
  amount : Option ℚ
  currency : Option String
  size : Option String
deriving DecidableEq

/-- A raw document of the `fragrances` collection (normalized shape:
foreign keys only). -/
structure FragranceDoc where
  id : String
  name : Option String
  brandId : Option String
  releaseYear : Option Int
  concentration : Option String
  gender : Option String
  description : Option String
  perfumer : Option String
  imageUrl : Option String
  notes : Option RawNotes
  ratings : Option RawRatings
  price : Option RawPrice
deriving DecidableEq

/-! ## Entity resolver (cache.py `_DataCache._load` lines 86–171,
identical logic in `FragranceService._resolve_with_cache`) -/

/-- `cache._load` brand construction: `{"id": doc.id, "name": d.get("name",""),
"country": d.get("country",""), "foundedYear": d.get("foundedYear")}`. -/
def mkBrand (d : BrandDoc) : Brand :=
  { id := d.id, name := d.name.getD "", country := d.country.getD "",
    foundedYear := d.foundedYear }

/-- `cache._load` note construction: `{"id": doc.id, "name": d.get("name",""),
"family": d.get("family")}`. -/
def mkNote (d : NoteDoc) : Note :=
  { id := d.id, name := d.name.getD "", family := d.family }

/-- Ratings defaulting: every component `raw_ratings.get(_, 0)`. -/
def mkRatings (r : RawRatings) : Ratings :=
  { overall := r.overall.getD 0, longevity := r.longevity.getD 0,
    sillage := r.sillage.getD 0, value := r.value.getD 0,
    reviewCount := r.reviewCount.getD 0 }

/-- Python `if raw_price:` — a present but empty dict is falsy. -/
def rawPriceTruthy (p : RawPrice) : Bool :=
  p.amount.isSome || p.currency.isSome || p.size.isSome

/-- Price resolution: `None` stays `None`, a falsy dict stays `None`,
otherwise fields are defaulted (`amount` → 0, `currency` → "USD",
`size` → ""). -/
def mkPrice (p : Option RawPrice) : Option Price :=
  match p with
  | none => none
  | some rp =>
    if rawPriceTruthy rp then
      some { amount := rp.amount.getD 0, currency := rp.currency.getD "USD",
             size := rp.size.getD "" }
    else none

/-- `_resolve_notes`: map every note id through the note table, unknown
ids become the placeholder `{id, name: "", family: None}`. -/
def resolveNoteIds (nm : String → Option Note) (ids : List String) : List Note :=
  ids.map (fun nid => (nm nid).getD { id := nid, name := "", family := none })

/-- The empty raw-`notes` map (`data.get("notes", {})`). -/
def emptyRawNotes : RawNotes := { top := none, middle := none, base := none }

/-- The empty raw-`ratings` map (`data.get("ratings", {})`). -/
def emptyRawRatings : RawRatings :=
  { overall := none, longevity := none, sillage := none, value := none,
    reviewCount := none }

/-- The placeholder synthesized for a brand id that the brand table does
not contain: `{"id": brand_id, "name": "", "country": ""}`. -/
def placeholderBrand (bid : String) : Brand :=
  { id := bid, name := "", country := "", foundedYear := none }

/-- Resolve one fragrance document against pre-built brand/note tables
(`cache.py` lines 118–171; `FragranceService._resolve_with_cache`).
An absent `brandId` reads as `""`; a brand id missing from the table
becomes `{id: brand_id, name: "", country: ""}`. -/
def resolveWithCache (doc : FragranceDoc) (bm : String → Option Brand)
    (nm : String → Option Note) : Fragrance :=
  let brandId := doc.brandId.getD ""
  let brand := (bm brandId).getD (placeholderBrand brandId)
  let rawNotes := doc.notes.getD emptyRawNotes
  { id := doc.id
    name := doc.name.getD ""
    brand := brand
    releaseYear := doc.releaseYear.getD 0
    concentration := doc.concentration.getD ""
    gender := doc.gender.getD ""
    description := doc.description.getD ""
    perfumer := doc.perfumer
    imageUrl := doc.imageUrl.getD ""
    notes := { top := resolveNoteIds nm (rawNotes.top.getD [])
               middle := resolveNoteIds nm (rawNotes.middle.getD [])
               base := resolveNoteIds nm (rawNotes.base.getD []) }
    ratings := mkRatings (doc.ratings.getD emptyRawRatings)
    price := mkPrice doc.price }

/-! ### Lookup tables (Python dicts built by `_load`) -/

/-- Dict insertion: `m[k] = v` (overwrites). -/
def insertMap {β : Type} (m : String → Option β) (k : String) (v : β) :
    String → Option β :=
  fun x => if x = k then some v else m x

/-- `brand_map[doc.id] = brand` over the streamed brand docs. -/
def buildBrandMap (docs : List BrandDoc) : String → Option Brand :=
  docs.foldl (fun m d => insertMap m d.id (mkBrand d)) (fun _ => none)

/-- `note_map[doc.id] = note` over the streamed note docs. -/
def buildNoteMap (docs : List NoteDoc) : String → Option Note :=
  docs.foldl (fun m d => insertMap m d.id (mkNote d)) (fun _ => none)

/-- A brand table is well formed when every stored brand carries the id
it is keyed under (true of every table the program builds). -/
def wfBrandMap (bm : String → Option Brand) : Prop :=
  ∀ k b, bm k = some b → b.id = k

/-- A note table is well formed when every stored note carries the id it
is keyed under (true of every table the program builds). -/
def wfNoteMap (nm : String → Option Note) : Prop :=
  ∀ k n, nm k = some n → n.id = k

theorem wfBrandMap_insertMap (m : String → Option Brand) (hm : wfBrandMap m)
    (k : String) (b : Brand) (hb : b.id = k) : wfBrandMap (insertMap m k b) := by
  intro x c hx
  unfold insertMap at hx
  split at hx
  · next hxk => cases hx; rw [hb, hxk]
  · exact hm x c hx

theorem wfNoteMap_insertMap (m : String → Option Note) (hm : wfNoteMap m)
    (k : String) (n : Note) (hn : n.id = k) : wfNoteMap (insertMap m k n) := by
  intro x c hx
  unfold insertMap at hx
  split at hx
  · next hxk => cases hx; rw [hn, hxk]
  · exact hm x c hx

theorem wfBrandMap_buildBrandMap (docs : List BrandDoc) :
    wfBrandMap (buildBrandMap docs) := by
  suffices h : ∀ m, wfBrandMap m →
      wfBrandMap (docs.foldl (fun m d => insertMap m d.id (mkBrand d)) m) by
    exact h _ (fun k b hk => by cases hk)
  induction docs with
  | nil => intro m hm; exact hm
  | cons d ds ih =>
    intro m hm
    rw [List.foldl_cons]
    exact ih _ (wfBrandMap_insertMap m hm d.id (mkBrand d) rfl)

theorem wfNoteMap_buildNoteMap (docs : List NoteDoc) :
    wfNoteMap (buildNoteMap docs) := by
  suffices h : ∀ m, wfNoteMap m →
      wfNoteMap (docs.foldl (fun m d => insertMap m d.id (mkNote d)) m) by
    exact h _ (fun k n hk => by cases hk)
  induction docs with
  | nil => intro m hm; exact hm
  | cons d ds ih =>
    intro m hm
    rw [List.foldl_cons]
    exact ih _ (wfNoteMap_insertMap m hm d.id (mkNote d) rfl)

/-- Under a well-formed note table, resolution preserves the referenced
note ids, position by position. -/
theorem resolveNoteIds_ids (nm : String → Option Note) (hnm : wfNoteMap nm)
    (ids : List String) : (resolveNoteIds nm ids).map Note.id = ids := by
  induction ids with
  | nil => rfl
  | cons nid rest ih =>
    simp only [resolveNoteIds, List.map_cons, List.map_map] at ih ⊢
    refine congrArg₂ List.cons ?_ ih
    cases h : nm nid with
    | none => simp [h]
    | some n => simp [h, hnm nid n h]

/-- The placeholder synthesized for a note id that the note table does
not contain: `{"id": nid, "name": "", "family": None}`. -/
def placeholderNote (nid : String) : Note :=
  { id := nid, name := "", family := none }

/-- The top note-id array of a raw fragrance document, after the
`data.get("notes", {})` / `raw_notes.get("top", [])` defaulting. -/
def topIds (doc : FragranceDoc) : List String :=
  (doc.notes.getD emptyRawNotes).top.getD []

/-- Middle note-id array of a raw fragrance document after defaulting. -/
def middleIds (doc : FragranceDoc) : List String :=
  (doc.notes.getD emptyRawNotes).middle.getD []

/-- Base note-id array of a raw fragrance document after defaulting. -/
def baseIds (doc : FragranceDoc) : List String :=
  (doc.notes.getD emptyRawNotes).base.getD []

/-- Per-position placeholder behaviour of note resolution: an id the
table misses resolves to the placeholder note, in place. -/
theorem resolveNoteIds_placeholder (nm : String → Option Note)
    (ids : List String) (i : ℕ) (nid : String)
    (hi : ids.get? i = some nid) (hmiss : nm nid = none) :
    (resolveNoteIds nm ids).get? i = some (placeholderNote nid) := by
  unfold resolveNoteIds
  rw [List.get?_map, hi]
  simp [hmiss, placeholderNote]

/-- C1 — Fragrance resolution is total. `resolveWithCache` is a total
function (no error outcome exists in its type), and for every normalized
fragrance document and arbitrary (well-formed) brand/note tables:
the embedded brand carries exactly the referenced brand id (so a missing
`brandId` key yields id `""`); a brand id absent from the table yields
the placeholder `{id: brandId, name: "", country: ""}`; each of the three
embedded note arrays carries exactly the referenced note ids, in order
(hence non-null ids throughout); and each note id missing from the note
table yields, at its position, the placeholder `{id, name: "", family: None}`. -/
theorem resolution_totality (doc : FragranceDoc)
    (bm : String → Option Brand) (nm : String → Option Note)
    (hbm : wfBrandMap bm) (hnm : wfNoteMap nm) :
    (resolveWithCache doc bm nm).brand.id = doc.brandId.getD "" ∧
    (bm (doc.brandId.getD "") = none →
      (resolveWithCache doc bm nm).brand = placeholderBrand (doc.brandId.getD "")) ∧
    (resolveWithCache doc bm nm).notes.top.map Note.id = topIds doc ∧
    (resolveWithCache doc bm nm).notes.middle.map Note.id = middleIds doc ∧
    (resolveWithCache doc bm nm).notes.base.map Note.id = baseIds doc ∧
    (∀ i nid, (topIds doc).get? i = some nid → nm nid = none →
      (resolveWithCache doc bm nm).notes.top.get? i = some (placeholderNote nid)) ∧
    (∀ i nid, (middleIds doc).get? i = some nid → nm nid = none →
      (resolveWithCache doc bm nm).notes.middle.get? i = some (placeholderNote nid)) ∧
    (∀ i nid, (baseIds doc).get? i = some nid → nm nid = none →
      (resolveWithCache doc bm nm).notes.base.get? i = some (placeholderNote nid)) := by
  refine ⟨?_, ?_, ?_, ?_, ?_, ?_, ?_, ?_⟩
  · unfold resolveWithCache
    cases h : bm (doc.brandId.getD "") with
    | none => simp [h, placeholderBrand]
    | some b => simp [h, hbm _ b h]
  · intro h
    unfold resolveWithCache
    simp [h]
  · exact resolveNoteIds_ids nm hnm _
  · exact resolveNoteIds_ids nm hnm _
  · exact resolveNoteIds_ids nm hnm _
  · exact fun i nid hi hm => resolveNoteIds_placeholder nm _ i nid hi hm
  · exact fun i nid hi hm => resolveNoteIds_placeholder nm _ i nid hi hm
  · exact fun i nid hi hm => resolveNoteIds_placeholder nm _ i nid hi hm

/-- Concrete fragrance document for the C1 witness: references brand
`"bX"` and notes `"n1"`, `"nX"`, of which only `"n1"` will exist. -/
def demoDocC1 : FragranceDoc :=
  { id := "f1", name := some "Test", brandId := some "bX",
    releaseYear := some 2020, concentration := some "EDP",
    gender := some "Unisex", description := none, perfumer := none,
    imageUrl := none,
    notes := some { top := some ["n1", "nX"], middle := none, base := some [] },
    ratings := none, price := none }

/-- Concrete brand table for the C1 witness (does not contain `"bX"`). -/
def demoBmC1 : String → Option Brand :=
  buildBrandMap [{ id := "b1", name := some "Acme", country := some "FR",
                   foundedYear := none }]

/-- Concrete note table for the C1 witness (contains only `"n1"`). -/
def demoNmC1 : String → Option Note :=
  buildNoteMap [{ id := "n1", name := some "Bergamot", family := some "Citrus" }]

/-- Witness for C1 at a concrete document whose brand reference and one
note reference are missing from the tables. -/
theorem resolution_totality_witness :
    (resolveWithCache demoDocC1 demoBmC1 demoNmC1).brand.id
        = demoDocC1.brandId.getD "" ∧
    (demoBmC1 (demoDocC1.brandId.getD "") = none →
      (resolveWithCache demoDocC1 demoBmC1 demoNmC1).brand
        = placeholderBrand (demoDocC1.brandId.getD "")) ∧
    (resolveWithCache demoDocC1 demoBmC1 demoNmC1).notes.top.map Note.id
        = topIds demoDocC1 ∧
    (resolveWithCache demoDocC1 demoBmC1 demoNmC1).notes.middle.map Note.id
        = middleIds demoDocC1 ∧
    (resolveWithCache demoDocC1 demoBmC1 demoNmC1).notes.base.map Note.id
        = baseIds demoDocC1 ∧
    (∀ i nid, (topIds demoDocC1).get? i = some nid → demoNmC1 nid = none →
      (resolveWithCache demoDocC1 demoBmC1 demoNmC1).notes.top.get? i
        = some (placeholderNote nid)) ∧
    (∀ i nid, (middleIds demoDocC1).get? i = some nid → demoNmC1 nid = none →
      (resolveWithCache demoDocC1 demoBmC1 demoNmC1).notes.middle.get? i
        = some (placeholderNote nid)) ∧
    (∀ i nid, (baseIds demoDocC1).get? i = some nid → demoNmC1 nid = none →
      (resolveWithCache demoDocC1 demoBmC1 demoNmC1).notes.base.get? i
        = some (placeholderNote nid)) :=
  resolution_totality demoDocC1 demoBmC1 demoNmC1
    (wfBrandMap_buildBrandMap _) (wfNoteMap_buildNoteMap _)

/-! ## Catalogue cache (`backend/cache.py`, `_DataCache`) -/

/-- Result of streaming one Firestore collection: either every document,
or — the store failing partway — a yielded prefix followed by an
exception. -/
inductive StreamResult (α : Type) where
  | ok (docs : List α)
  | failAfter (docs : List α)
deriving DecidableEq

/-- The three collections the reload protocol streams. -/
structure Store where
  brands : StreamResult BrandDoc
  notes : StreamResult NoteDoc
  fragrances : StreamResult FragranceDoc
deriving DecidableEq

/-- The cache's mutable state: the three published lists plus the
`_loaded_at` stamp (epoch seconds, 0 when never loaded). -/
structure CacheState where
  brands : List Brand
  notes : List Note
  fragrances : List Fragrance
  loadedAt : ℚ
deriving DecidableEq

/-- `TTL_SECONDS = 10 * 60` (cache.py line 30). -/
def TTL_SECONDS : ℚ := 10 * 60

/-- Does streaming this collection raise? -/
def streamFails {α : Type} : StreamResult α → Bool
  | .ok _ => false
  | .failAfter _ => true

/-- Does a reload against this store raise at some point? -/
def storeFails (st : Store) : Bool :=
  streamFails st.brands || streamFails st.notes || streamFails st.fragrances

/-- `_DataCache._load` (cache.py lines 81–178). Each collection list is
replaced in place while its stream is consumed; `_loaded_at` is stamped
(with the time `now` at the end of the load) only after all three
streams succeed. A stream failure leaves the partially rebuilt list
published and propagates the exception (`true` in the second component);
there is no exception handler in the source. -/
def load (now : ℚ) (st : Store) (s : CacheState) : CacheState × Bool :=
  match st.brands with
  | .failAfter pre => ({ s with brands := pre.map mkBrand }, true)
  | .ok bds =>
    let s₁ : CacheState := { s with brands := bds.map mkBrand }
    let bm := buildBrandMap bds
    match st.notes with
    | .failAfter pre => ({ s₁ with notes := pre.map mkNote }, true)
    | .ok nds =>
      let s₂ : CacheState := { s₁ with notes := nds.map mkNote }
      let nm := buildNoteMap nds
      match st.fragrances with
      | .failAfter pre =>
        ({ s₂ with fragrances := pre.map (fun d => resolveWithCache d bm nm) }, true)
      | .ok fds =>
        ({ s₂ with fragrances := fds.map (fun d => resolveWithCache d bm nm),
                   loadedAt := now }, false)

/-- `_DataCache._ensure_loaded` (cache.py lines 71–79), sequentially:
`t₁` is the `time.time()` of the unlocked staleness check, `t₂` the one
of the double-check under the lock, `t₃` the stamp time at the end of
`_load`. Returns the new state, whether an exception propagated, and how
many reloads were performed. -/
def ensureLoaded (t₁ t₂ t₃ : ℚ) (st : Store) (s : CacheState) :
    CacheState × Bool × ℕ :=
  if t₁ - s.loadedAt < TTL_SECONDS then (s, false, 0)
  else if t₂ - s.loadedAt < TTL_SECONDS then (s, false, 0)
  else ((load t₃ st s).1, (load t₃ st s).2, 1)

/-- C3 — TTL boundary: the TTL constant is 600 seconds; an access
strictly before `loadedAt + TTL` performs no reload and returns the
snapshot unchanged; an access strictly after `loadedAt + TTL` (with the
under-lock re-check sampled no earlier) performs exactly one reload. -/
theorem ttl_boundary (t₁ t₂ t₃ : ℚ) (st : Store) (s : CacheState) :
    TTL_SECONDS = 600 ∧
    (t₁ < s.loadedAt + TTL_SECONDS →
      ensureLoaded t₁ t₂ t₃ st s = (s, false, 0)) ∧
    (s.loadedAt + TTL_SECONDS < t₁ → t₁ ≤ t₂ →
      (ensureLoaded t₁ t₂ t₃ st s).2.2 = 1) := by
  refine ⟨by norm_num [TTL_SECONDS], ?_, ?_⟩
  · intro h
    have h₁ : t₁ - s.loadedAt < TTL_SECONDS := by linarith
    simp [ensureLoaded, h₁]
  · intro h hmono
    have h₁ : ¬ t₁ - s.loadedAt < TTL_SECONDS := by push_neg; linarith
    have h₂ : ¬ t₂ - s.loadedAt < TTL_SECONDS := by push_neg; linarith
    simp [ensureLoaded, h₁, h₂]

/-- Store used by the C3 witness (contents irrelevant to the boundary). -/
def demoStoreC3 : Store :=
  { brands := .ok [], notes := .ok [], fragrances := .ok [] }

/-- Warm cache state loaded at epoch second 100, for the C3 witness. -/
def demoStateC3 : CacheState :=
  { brands := [], notes := [], fragrances := [], loadedAt := 100 }

/-- Witness for C3: at `t = 699 < 100 + 600` no reload happens and the
state is returned unchanged; at `t = 701 > 100 + 600` exactly one reload
happens. -/
theorem ttl_boundary_witness :
    ensureLoaded 699 699 699 demoStoreC3 demoStateC3 = (demoStateC3, false, 0) ∧
    (ensureLoaded 701 701 701 demoStoreC3 demoStateC3).2.2 = 1 :=
  ⟨(ttl_boundary 699 699 699 demoStoreC3 demoStateC3).2.1
      (by norm_num [demoStateC3, TTL_SECONDS]),
   (ttl_boundary 701 701 701 demoStoreC3 demoStateC3).2.2
      (by norm_num [demoStateC3, TTL_SECONDS]) le_rfl⟩

/-- Warm snapshot for the C2 counterexample: one published brand,
loaded at epoch second 100. -/
def demoWarmC2 : CacheState :=
  { brands := [{ id := "b1", name := "Acme", country := "FR", foundedYear := none }],
    notes := [], fragrances := [], loadedAt := 100 }

/-- Store whose brands stream fails immediately, for C2. -/
def demoFailingStoreC2 : Store :=
  { brands := .failAfter [], notes := .ok [], fragrances := .ok [] }

/-- C2 counterexample: a refresh of an already-warm cache against a
failing store surfaces the failure to the caller (second component
`true`) and does not keep the previous snapshot intact — the published
brand list is overwritten by the partial (empty) prefix. This refutes
both halves of the claim at a concrete input. -/
theorem reload_failure_counterexample :
    (ensureLoaded 700 700 700 demoFailingStoreC2 demoWarmC2).2.1 = true ∧
    (ensureLoaded 700 700 700 demoFailingStoreC2 demoWarmC2).1.brands = [] ∧
    demoWarmC2.brands ≠ [] := by
  refine ⟨?_, ?_, by simp [demoWarmC2]⟩ <;>
    norm_num [ensureLoaded, load, demoWarmC2, demoFailingStoreC2, TTL_SECONDS]

/-- C2 amended — reload failure semantics actually implemented: when a
stale access triggers a reload, a store failure propagates to the caller
whether or not a prior snapshot exists; `loadedAt` is not advanced (so
the next access retries), but the previously published collections are
not preserved: collections streamed before the failure are replaced and
the failing collection is left holding the partial prefix. Only a fully
successful reload stamps `loadedAt`. -/
theorem reload_failure_semantics (t₁ t₂ t₃ : ℚ) (st : Store) (s : CacheState)
    (hstale : s.loadedAt + TTL_SECONDS ≤ t₁) (hmono : t₁ ≤ t₂) :
    ((ensureLoaded t₁ t₂ t₃ st s).2.1 = storeFails st) ∧
    (storeFails st = true →
      (ensureLoaded t₁ t₂ t₃ st s).1.loadedAt = s.loadedAt) ∧
    (storeFails st = false →
      (ensureLoaded t₁ t₂ t₃ st s).1.loadedAt = t₃) ∧
    (∀ pre, st.brands = .failAfter pre →
      (ensureLoaded t₁ t₂ t₃ st s).1 = { s with brands := pre.map mkBrand }) ∧
    (∀ bds pre, st.brands = .ok bds → st.notes = .failAfter pre →
      (ensureLoaded t₁ t₂ t₃ st s).1 =
        { s with brands := bds.map mkBrand, notes := pre.map mkNote }) ∧
    (∀ bds nds pre, st.brands = .ok bds → st.notes = .ok nds →
      st.fragrances = .failAfter pre →
      (ensureLoaded t₁ t₂ t₃ st s).1 =
        { s with brands := bds.map mkBrand, notes := nds.map mkNote,
                 fragrances := pre.map (fun d =>
                   resolveWithCache d (buildBrandMap bds) (buildNoteMap nds)) }) := by
  have h₁ : ¬ t₁ - s.loadedAt < TTL_SECONDS := by push_neg; linarith
  have h₂ : ¬ t₂ - s.loadedAt < TTL_SECONDS := by push_neg; linarith
  simp only [ensureLoaded, if_neg h₁, if_neg h₂]
  cases hb : st.brands with
  | failAfter pre => simp [load, hb, storeFails, streamFails]
  | ok bds =>
    cases hn : st.notes with
    | failAfter pre => simp [load, hb, hn, storeFails, streamFails]
    | ok nds =>
      cases hf : st.fragrances with
      | failAfter pre => simp [load, hb, hn, hf, storeFails, streamFails]
      | ok fds => simp [load, hb, hn, hf, storeFails, streamFails]

/-- Witness for the amended C2 theorem at the concrete warm cache and
failing store of the counterexample. -/
theorem reload_failure_semantics_witness :
    ((ensureLoaded 700 700 700 demoFailingStoreC2 demoWarmC2).2.1
        = storeFails demoFailingStoreC2) ∧
    (storeFails demoFailingStoreC2 = true →
      (ensureLoaded 700 700 700 demoFailingStoreC2 demoWarmC2).1.loadedAt
        = demoWarmC2.loadedAt) ∧
    (storeFails demoFailingStoreC2 = false →
      (ensureLoaded 700 700 700 demoFailingStoreC2 demoWarmC2).1.loadedAt = 700) ∧
    (∀ pre, demoFailingStoreC2.brands = .failAfter pre →
      (ensureLoaded 700 700 700 demoFailingStoreC2 demoWarmC2).1 =
        { demoWarmC2 with brands := pre.map mkBrand }) ∧
    (∀ bds pre, demoFailingStoreC2.brands = .ok bds →
      demoFailingStoreC2.notes = .failAfter pre →
      (ensureLoaded 700 700 700 demoFailingStoreC2 demoWarmC2).1 =
        { demoWarmC2 with brands := bds.map mkBrand, notes := pre.map mkNote }) ∧
    (∀ bds nds pre, demoFailingStoreC2.brands = .ok bds →
      demoFailingStoreC2.notes = .ok nds →
      demoFailingStoreC2.fragrances = .failAfter pre →
      (ensureLoaded 700 700 700 demoFailingStoreC2 demoWarmC2).1 =
        { demoWarmC2 with brands := bds.map mkBrand, notes := nds.map mkNote,
                          fragrances := pre.map (fun d =>
                            resolveWithCache d (buildBrandMap bds)
                              (buildNoteMap nds)) }) :=
  reload_failure_semantics 700 700 700 demoFailingStoreC2 demoWarmC2
    (by norm_num [demoWarmC2, TTL_SECONDS]) le_rfl

/-! ## Stable sorting

Python's `sorted(..., key=k)` / `list.sort` is a stable sort;
`sorted(..., key=k, reverse=True)` is the stable descending sort (ties
keep input order). A stable sort by a total preorder is unique, and
`List.insertionSort` with the corresponding non-strict relation computes
it: permutation, sortedness and stability are proved below. -/

/-- Stable ascending sort by a key (`sorted(l, key=k)`). -/
def ascSort {α β : Type} [LinearOrder β] (k : α → β) (l : List α) : List α :=
  @List.insertionSort α (fun a b => k a ≤ k b)
    (fun a b => inferInstanceAs (Decidable (k a ≤ k b))) l

/-- Stable descending sort by a key (`sorted(l, key=k, reverse=True)`). -/
def descSort {α β : Type} [LinearOrder β] (k : α → β) (l : List α) : List α :=
  @List.insertionSort α (fun a b => k b ≤ k a)
    (fun a b => inferInstanceAs (Decidable (k b ≤ k a))) l

theorem filter_orderedInsert_pos {α : Type} (r : α → α → Prop) [DecidableRel r]
    (p : α → Bool) (a : α) (hpa : p a = true) (h : ∀ b, p b = true → r a b) :
    ∀ l : List α, (List.orderedInsert r a l).filter p = a :: l.filter p := by
  intro l
  induction l with
  | nil => simp [List.orderedInsert, hpa]
  | cons b t ih =>
    by_cases hr : r a b
    · simp [List.orderedInsert, if_pos hr, List.filter_cons, hpa]
    · have hpb : p b = false := by
        cases hpb : p b
        · rfl
        · exact absurd (h b hpb) hr
      simp [List.orderedInsert, if_neg hr, List.filter_cons, hpb, ih]

theorem filter_orderedInsert_neg {α : Type} (r : α → α → Prop) [DecidableRel r]
    (p : α → Bool) (a : α) (hpa : p a = false) :
    ∀ l : List α, (List.orderedInsert r a l).filter p = l.filter p := by
  intro l
  induction l with
  | nil => simp [List.orderedInsert, hpa]
  | cons b t ih =>
    by_cases hr : r a b
    · simp [List.orderedInsert, if_pos hr, List.filter_cons, hpa]
    · simp [List.orderedInsert, if_neg hr, List.filter_cons, ih]

/-- Stability of insertion sort: any predicate that only selects
mutually `r`-related elements filters to the same subsequence before and
after sorting. -/
theorem filter_insertionSort {α : Type} (r : α → α → Prop) [DecidableRel r]
    (p : α → Bool) (h : ∀ a b, p a = true → p b = true → r a b) :
    ∀ l : List α, (List.insertionSort r l).filter p = l.filter p := by
  intro l
  induction l with
  | nil => rfl
  | cons a t ih =>
    rw [List.insertionSort]
    cases hpa : p a with
    | true =>
      rw [filter_orderedInsert_pos r p a hpa (fun b hb => h a b hpa hb), ih,
        List.filter_cons_of_pos hpa]
    | false =>
      rw [filter_orderedInsert_neg r p a hpa, ih, List.filter_cons_of_neg ?_]
      simp [hpa]

theorem descSort_perm {α β : Type} [LinearOrder β] (k : α → β) (l : List α) :
    List.Perm (descSort k l) l :=
  List.perm_insertionSort _ l

theorem ascSort_perm {α β : Type} [LinearOrder β] (k : α → β) (l : List α) :
    List.Perm (ascSort k l) l :=
  List.perm_insertionSort _ l

theorem descSort_pairwise {α β : Type} [LinearOrder β] (k : α → β) (l : List α) :
    (descSort k l).Pairwise (fun a b => k b ≤ k a) := by
  haveI : IsTotal α (fun a b => k b ≤ k a) := ⟨fun a b => le_total (k b) (k a)⟩
  haveI : IsTrans α (fun a b => k b ≤ k a) :=
    ⟨fun _ _ _ h₁ h₂ => le_trans h₂ h₁⟩
  exact List.sorted_insertionSort _ l

theorem ascSort_pairwise {α β : Type} [LinearOrder β] (k : α → β) (l : List α) :
    (ascSort k l).Pairwise (fun a b => k a ≤ k b) := by
  haveI : IsTotal α (fun a b => k a ≤ k b) := ⟨fun a b => le_total (k a) (k b)⟩
  haveI : IsTrans α (fun a b => k a ≤ k b) :=
    ⟨fun _ _ _ h₁ h₂ => le_trans h₁ h₂⟩
  exact List.sorted_insertionSort _ l

theorem descSort_stable {α β : Type} [LinearOrder β] [DecidableEq β]
    (k : α → β) (c : β) (l : List α) :
    (descSort k l).filter (fun a => k a == c) = l.filter (fun a => k a == c) := by
  refine filter_insertionSort _ _ ?_ l
  intro a b ha hb
  have ha' : k a = c := by simpa using ha
  have hb' : k b = c := by simpa using hb
  rw [ha', hb']

theorem ascSort_stable {α β : Type} [LinearOrder β] [DecidableEq β]
    (k : α → β) (c : β) (l : List α) :
    (ascSort k l).filter (fun a => k a == c) = l.filter (fun a => k a == c) := by
  refine filter_insertionSort _ _ ?_ l
  intro a b ha hb
  have ha' : k a = c := by simpa using ha
  have hb' : k b = c := by simpa using hb
  rw [ha', hb']

/-! ## Query engine: sorting (`routes/fragrances.py` `_apply_sort`) -/

/-- The `price-low`/`price-high` sort key:
`(f.get("price") or {}).get("amount", 0)` — an absent price counts 0. -/
def priceAmountKey (f : Fragrance) : ℚ :=
  (f.price.map Price.amount).getD 0

/-- `_apply_sort` (routes/fragrances.py lines 79–109): five sort keys;
anything else falls into the default rating-descending branch. -/
def applySort (frags : List Fragrance) (sortKey : String) : List Fragrance :=
  if sortKey = "reviews" then descSort (fun f => f.ratings.reviewCount) frags
  else if sortKey = "price-low" then ascSort priceAmountKey frags
  else if sortKey = "price-high" then descSort priceAmountKey frags
  else if sortKey = "newest" then descSort (fun f => f.releaseYear) frags
  else descSort (fun f => f.ratings.overall) frags

theorem applySort_reviews (frags : List Fragrance) :
    applySort frags "reviews" = descSort (fun f => f.ratings.reviewCount) frags := by
  unfold applySort
  rw [if_pos rfl]

theorem applySort_priceLow (frags : List Fragrance) :
    applySort frags "price-low" = ascSort priceAmountKey frags := by
  unfold applySort
  rw [if_neg (by decide), if_pos rfl]

theorem applySort_priceHigh (frags : List Fragrance) :
    applySort frags "price-high" = descSort priceAmountKey frags := by
  unfold applySort
  rw [if_neg (by decide), if_neg (by decide), if_pos rfl]

theorem applySort_newest (frags : List Fragrance) :
    applySort frags "newest" = descSort (fun f => f.releaseYear) frags := by
  unfold applySort
  rw [if_neg (by decide), if_neg (by decide), if_neg (by decide), if_pos rfl]

theorem applySort_default (frags : List Fragrance) (key : String)
    (h₁ : key ≠ "reviews") (h₂ : key ≠ "price-low") (h₃ : key ≠ "price-high")
    (h₄ : key ≠ "newest") :
    applySort frags key = descSort (fun f => f.ratings.overall) frags := by
  unfold applySort
  rw [if_neg h₁, if_neg h₂, if_neg h₃, if_neg h₄]

/-- C8 — Sort semantics with permissive fallback. Each supported key
returns a permutation of the input that is ordered by its key
(descending for `reviews`/`price-high`/`newest`/`rating`, ascending for
`price-low`, with an absent price read as amount 0) and stable (elements
with equal keys keep their input order, stated via filtering at every
key value); every other key, `"rating"` included, produces the default
rating-descending order rather than an error. -/
theorem sort_semantics (frags : List Fragrance) (key : String) :
    (List.Perm (applySort frags "reviews") frags ∧
     (applySort frags "reviews").Pairwise
       (fun a b => b.ratings.reviewCount ≤ a.ratings.reviewCount) ∧
     ∀ c : Int, (applySort frags "reviews").filter
         (fun f => f.ratings.reviewCount == c)
       = frags.filter (fun f => f.ratings.reviewCount == c)) ∧
    (List.Perm (applySort frags "price-low") frags ∧
     (applySort frags "price-low").Pairwise
       (fun a b => priceAmountKey a ≤ priceAmountKey b) ∧
     ∀ c : ℚ, (applySort frags "price-low").filter
         (fun f => priceAmountKey f == c)
       = frags.filter (fun f => priceAmountKey f == c)) ∧
    (List.Perm (applySort frags "price-high") frags ∧
     (applySort frags "price-high").Pairwise
       (fun a b => priceAmountKey b ≤ priceAmountKey a) ∧
     ∀ c : ℚ, (applySort frags "price-high").filter
         (fun f => priceAmountKey f == c)
       = frags.filter (fun f => priceAmountKey f == c)) ∧
    (List.Perm (applySort frags "newest") frags ∧
     (applySort frags "newest").Pairwise
       (fun a b => b.releaseYear ≤ a.releaseYear) ∧
     ∀ c : Int, (applySort frags "newest").filter (fun f => f.releaseYear == c)
       = frags.filter (fun f => f.releaseYear == c)) ∧
    (key ≠ "reviews" → key ≠ "price-low" → key ≠ "price-high" →
     key ≠ "newest" →
     applySort frags key = applySort frags "rating" ∧
     List.Perm (applySort frags key) frags ∧
     (applySort frags key).Pairwise
       (fun a b => b.ratings.overall ≤ a.ratings.overall) ∧
     ∀ c : ℚ, (applySort frags key).filter (fun f => f.ratings.overall == c)
       = frags.filter (fun f => f.ratings.overall == c)) := by
  refine ⟨?_, ?_, ?_, ?_, ?_⟩
  · rw [applySort_reviews]
    exact ⟨descSort_perm _ _, descSort_pairwise _ _, fun c => descSort_stable _ c _⟩
  · rw [applySort_priceLow]
    exact ⟨ascSort_perm _ _, ascSort_pairwise _ _, fun c => ascSort_stable _ c _⟩
  · rw [applySort_priceHigh]
    exact ⟨descSort_perm _ _, descSort_pairwise _ _, fun c => descSort_stable _ c _⟩
  · rw [applySort_newest]
    exact ⟨descSort_perm _ _, descSort_pairwise _ _, fun c => descSort_stable _ c _⟩
  · intro h₁ h₂ h₃ h₄
    rw [applySort_default frags key h₁ h₂ h₃ h₄,
      applySort_default frags "rating" (by decide) (by decide) (by decide)
        (by decide)]
    exact ⟨rfl, descSort_perm _ _, descSort_pairwise _ _,
      fun c => descSort_stable _ c _⟩

/-- Witness for C8 at the unknown sort key `"bogus"` and the empty list:
the fallback branch applies and yields the default order. -/
theorem sort_semantics_witness :
    applySort [] "bogus" = applySort [] "rating" ∧
    List.Perm (applySort [] "bogus") [] :=
  ((sort_semantics [] "bogus").2.2.2.2 (by decide) (by decide) (by decide)
      (by decide)).1.symm ▸
    ⟨((sort_semantics [] "bogus").2.2.2.2 (by decide) (by decide) (by decide)
        (by decide)).1,
     ((sort_semantics [] "bogus").2.2.2.2 (by decide) (by decide) (by decide)
        (by decide)).2.1⟩

/-! ## Query engine: filtering (`routes/fragrances.py` `_apply_filters`) -/

/-- Auxiliary substring scan: does `needle` occur contiguously in the
scanned list? -/
def strHasSubAux (needle : List Char) : List Char → Bool
  | [] => needle.isEmpty
  | c :: rest => needle.isPrefixOf (c :: rest) || strHasSubAux needle rest

/-- Python's `needle in hay` on strings: substring containment. -/
def strContains (hay needle : String) : Bool :=
  strHasSubAux needle.data hay.data

/-- The query parameters `_apply_filters` reads; `args.get(key, "")`
yields `""` for an unsupplied parameter. -/
structure FilterArgs where
  search : String
  brand : String
  concentration : String
  gender : String
  notes : String
deriving DecidableEq

/-- `{nid.strip() for nid in notes_param.split(",") if nid.strip()}`
(membership is all that is used of the set). -/
def parseNoteIds (s : String) : List String :=
  ((s.splitOn ",").map String.trim).filter (fun nid => nid != "")

/-- All note objects of a fragrance, top ++ middle ++ base. -/
def allNoteObjs (f : Fragrance) : List Note :=
  f.notes.top ++ f.notes.middle ++ f.notes.base

/-- `_has_note`: some note object of the fragrance has its id in the
supplied set. -/
def hasNote (noteIds : List String) (f : Fragrance) : Bool :=
  (allNoteObjs f).any (fun n => decide (n.id ∈ noteIds))

/-- `_apply_filters` (routes/fragrances.py lines 23–76): five optional
predicates applied as successive list comprehensions. -/
def applyFilters (frags : List Fragrance) (args : FilterArgs) : List Fragrance :=
  let search := args.search.trim.toLower
  let r₁ := if search ≠ "" then
      frags.filter (fun f =>
        strContains f.name.toLower search || strContains f.brand.name.toLower search)
    else frags
  let brandId := args.brand.trim
  let r₂ := if brandId ≠ "" then r₁.filter (fun f => f.brand.id == brandId) else r₁
  let conc := args.concentration.trim
  let r₃ := if conc ≠ "" then r₂.filter (fun f => f.concentration == conc) else r₂
  let gender := args.gender.trim
  let r₄ := if gender ≠ "" then r₃.filter (fun f => f.gender == gender) else r₃
  let notesParam := args.notes.trim
  if notesParam ≠ "" then
    let noteIds := parseNoteIds notesParam
    if noteIds ≠ [] then r₄.filter (hasNote noteIds) else r₄
  else r₄

/-! ### The specification's reading of the five predicates -/

/-- Spec predicate `search`: unsupplied, or a case-insensitive substring
match against the fragrance name or the embedded brand name. -/
def searchPred (args : FilterArgs) (f : Fragrance) : Bool :=
  args.search.trim.toLower == "" ||
    (strContains f.name.toLower args.search.trim.toLower ||
     strContains f.brand.name.toLower args.search.trim.toLower)

/-- Spec predicate `brand`: unsupplied, or exact embedded-brand-id
equality. -/
def brandPred (args : FilterArgs) (f : Fragrance) : Bool :=
  args.brand.trim == "" || f.brand.id == args.brand.trim

/-- Spec predicate `concentration`: unsupplied, or exact equality. -/
def concPred (args : FilterArgs) (f : Fragrance) : Bool :=
  args.concentration.trim == "" || f.concentration == args.concentration.trim

/-- Spec predicate `gender`: unsupplied, or exact equality. -/
def genderPred (args : FilterArgs) (f : Fragrance) : Bool :=
  args.gender.trim == "" || f.gender == args.gender.trim

/-- The union of a fragrance's top/middle/base note ids, as a set. -/
def unionNoteIds (f : Fragrance) : Finset String :=
  ((allNoteObjs f).map Note.id).toFinset

/-- Spec predicate `notes`: unsupplied (or parsing to no ids), or the
union of the fragrance's note ids intersects the supplied id set. -/
def notesPred (args : FilterArgs) (f : Fragrance) : Bool :=
  args.notes.trim == "" || (parseNoteIds args.notes.trim).isEmpty ||
    decide ((unionNoteIds f ∩ (parseNoteIds args.notes.trim).toFinset).Nonempty)

/-- The conjunction (AND) of all five supplied predicates. -/
def matchesFilters (args : FilterArgs) (f : Fragrance) : Bool :=
  searchPred args f && brandPred args f && concPred args f &&
    genderPred args f && notesPred args f

theorem hasNote_eq_inter_nonempty (noteIds : List String) (f : Fragrance) :
    hasNote noteIds f =
      decide ((unionNoteIds f ∩ noteIds.toFinset).Nonempty) := by
  rcases h : hasNote noteIds f with _ | _
  · refine (Bool.eq_iff_iff.mpr ?_).symm
    simp only [decide_eq_true_eq, h]
    constructor
    · rintro ⟨x, hx⟩
      rw [Finset.mem_inter, List.mem_toFinset, unionNoteIds,
        List.mem_toFinset, List.mem_map] at hx
      obtain ⟨⟨n, hn, rfl⟩, hmem⟩ := hx
      have : hasNote noteIds f = true := by
        simp only [hasNote, List.any_eq_true, decide_eq_true_eq]
        exact ⟨n, hn, hmem⟩
      rw [h] at this
      cases this
    · intro hfalse
      cases hfalse
  · refine (Bool.eq_iff_iff.mpr ?_).symm
    simp only [decide_eq_true_eq, h]
    simp only [hasNote, List.any_eq_true, decide_eq_true_eq] at h
    obtain ⟨n, hn, hmem⟩ := h
    constructor
    · intro _; trivial
    · intro _
      refine ⟨n.id, ?_⟩
      rw [Finset.mem_inter, List.mem_toFinset, unionNoteIds, List.mem_toFinset,
        List.mem_map]
      exact ⟨⟨n, hn, rfl⟩, hmem⟩

/-- An optionally applied filter, as a single filter whose predicate is
`true` when the parameter is unsupplied. -/
theorem condFilter_eq {α : Type} (s : String) (p : α → Bool) (l : List α) :
    (if s ≠ "" then l.filter p else l) = l.filter (fun a => s == "" || p a) := by
  by_cases h : s = ""
  · subst h
    simp
  · rw [if_pos h]
    refine List.filter_congr ?_
    intro a _
    simp [h]

/-- The nested notes-stage conditional, as a single filter. -/
theorem condFilterNotes_eq {α : Type} (s : String) (ids : List String)
    (q : α → Bool) (l : List α) :
    (if s ≠ "" then (if ids ≠ [] then l.filter q else l) else l) =
      l.filter (fun a => s == "" || ids.isEmpty || q a) := by
  by_cases h : s = ""
  · subst h
    simp
  · rw [if_pos h]
    by_cases hi : ids = []
    · subst hi
      simp
    · rw [if_pos hi]
      refine List.filter_congr ?_
      intro a _
      simp [h, hi, List.isEmpty_iff]

/-- C6 — Filter composition: `_apply_filters` returns exactly the
fragrances satisfying every supplied predicate (AND across the five
predicates), in input order, where `search` is a case-insensitive
substring match against the fragrance name or embedded brand name,
`brand`/`concentration`/`gender` are exact equality, and `notes` admits
a fragrance iff the union of its top/middle/base note ids intersects the
supplied id set (OR within that predicate). A fragrance matching only
some supplied predicates fails the conjunction and is excluded. -/
theorem filter_composition (frags : List Fragrance) (args : FilterArgs) :
    applyFilters frags args = frags.filter (matchesFilters args) := by
  simp only [applyFilters]
  rw [condFilter_eq, condFilter_eq, condFilter_eq, condFilter_eq,
    condFilterNotes_eq, List.filter_filter, List.filter_filter,
    List.filter_filter, List.filter_filter]
  refine List.filter_congr ?_
  intro f _
  show _ = matchesFilters args f
  unfold matchesFilters searchPred brandPred concPred genderPred notesPred
  rw [hasNote_eq_inter_nonempty]
  cases args.search.trim.toLower == "" <;>
    cases args.brand.trim == "" <;>
    cases args.concentration.trim == "" <;>
    cases args.gender.trim == "" <;>
    cases args.notes.trim == "" <;>
    cases (parseNoteIds args.notes.trim).isEmpty <;>
    cases strContains f.name.toLower args.search.trim.toLower <;>
    cases strContains f.brand.name.toLower args.search.trim.toLower <;>
    cases f.brand.id == args.brand.trim <;>
    cases f.concentration == args.concentration.trim <;>
    cases f.gender == args.gender.trim <;>
    cases decide ((unionNoteIds f ∩ (parseNoteIds args.notes.trim).toFinset).Nonempty) <;>
    rfl

/-! ## Query engine: similarity
(`routes/fragrances.py` `_note_ids_for`, `_similarity_score`,
`get_similar_fragrances`) -/

/-- `_note_ids_for`: the set of all note ids used in a fragrance,
falsy (empty) ids dropped. -/
def noteIdsFor (f : Fragrance) : Finset String :=
  (((allNoteObjs f).map Note.id).filter (fun s => s != "")).toFinset

/-- `_similarity_score` (lines 123–147): `2 * note_score` plus flat
bonuses `0.15`/`0.1`/`0.05` for matching brand/gender/concentration,
where `note_score` is the Jaccard ratio of the two note-id sets, 0 when
either set (or their union) is empty. Floats are modelled as exact
rationals (`0.15 = 3/20`, `0.1 = 1/10`, `0.05 = 1/20`). -/
def similarityScore (target other : Fragrance) : ℚ :=
  if target.id = other.id then 0
  else
    let targetNotes := noteIdsFor target
    let otherNotes := noteIdsFor other
    let noteScore : ℚ :=
      if targetNotes = ∅ ∨ otherNotes = ∅ then 0
      else if targetNotes ∪ otherNotes = ∅ then 0
      else ((targetNotes ∩ otherNotes).card : ℚ) / ((targetNotes ∪ otherNotes).card : ℚ)
    let brandScore : ℚ := if target.brand.id = other.brand.id then 3 / 20 else 0
    let genderScore : ℚ := if target.gender = other.gender then 1 / 10 else 0
    let concentrationScore : ℚ :=
      if target.concentration = other.concentration then 1 / 20 else 0
    2 * noteScore + brandScore + genderScore + concentrationScore

/-- The candidate pool: every cached fragrance except the target id. -/
def simCandidates (frags : List Fragrance) (fragranceId : String) :
    List Fragrance :=
  frags.filter (fun f => f.id != fragranceId)

/-- Scored candidates with strictly positive score
(`scored = [(f, s) …]; scored = [(f, s) for (f, s) in scored if s > 0.0]`). -/
def simQualifying (frags : List Fragrance) (fragranceId : String)
    (target : Fragrance) : List (Fragrance × ℚ) :=
  ((simCandidates frags fragranceId).map
      (fun other => (other, similarityScore target other))).filter
    (fun p => decide ((0 : ℚ) < p.2))

/-- `scored.sort(key=lambda pair: pair[1], reverse=True)` — stable
descending sort on the score. -/
def simSorted (frags : List Fragrance) (fragranceId : String)
    (target : Fragrance) : List (Fragrance × ℚ) :=
  descSort Prod.snd (simQualifying frags fragranceId target)

/-- `get_similar_fragrances` (lines 206–234): `None` models the 404
"Fragrance not found" outcome, `some l` the 200 response carrying `l`. -/
def getSimilarFragrances (frags : List Fragrance) (fragranceId : String)
    (limit : Int) : Option (List Fragrance) :=
  match frags.find? (fun f => f.id == fragranceId) with
  | none => none
  | some target =>
    some (((simSorted frags fragranceId target).take (max limit 0).toNat).map
      Prod.fst)

/-- Spec-side Jaccard similarity of two id sets: `|A∩B| / |A∪B|`,
0 when either set is empty. -/
def jaccard (A B : Finset String) : ℚ :=
  if A = ∅ ∨ B = ∅ then 0 else ((A ∩ B).card : ℚ) / ((A ∪ B).card : ℚ)

/-- A fragrance with id `"t"` and no candidates around it, for C5. -/
def demoLoneT : Fragrance :=
  { id := "t", name := "Target", brand := placeholderBrand "b",
    releaseYear := 0, concentration := "EDP", gender := "Unisex",
    description := "", perfumer := none, imageUrl := "",
    notes := { top := [], middle := [], base := [] },
    ratings := { overall := 0, longevity := 0, sillage := 0, value := 0,
                 reviewCount := 0 },
    price := none }

/-- C5 counterexample: with the target present but no other fragrance in
the set, the qualifying candidate list is empty, yet the route answers
with the successful outcome `some []` (HTTP 200, `{"fragrances": []}`)
— an empty-but-successful result, not the "not found" outcome `none`
the claim requires. -/
theorem similar_empty_counterexample :
    getSimilarFragrances [demoLoneT] "t" 6 = some [] ∧
    (some ([] : List Fragrance) ≠ (none : Option (List Fragrance))) := by
  refine ⟨by decide, by decide⟩

/-- C5 amended — similarity not-found policy as implemented: a target id
absent from the fragrance set yields the distinguishable "not found"
outcome; a present target always yields a successful outcome, and in
particular an empty qualifying candidate list yields the
empty-but-successful result `some []` (distinguishable from "not found"
only in that `some [] ≠ none`). -/
theorem similar_not_found_semantics (frags : List Fragrance) (fid : String)
    (limit : Int) :
    (frags.find? (fun f => f.id == fid) = none →
      getSimilarFragrances frags fid limit = none) ∧
    (∀ target, frags.find? (fun f => f.id == fid) = some target →
      (getSimilarFragrances frags fid limit).isSome = true) ∧
    (∀ target, frags.find? (fun f => f.id == fid) = some target →
      simQualifying frags fid target = [] →
      getSimilarFragrances frags fid limit = some []) := by
  refine ⟨?_, ?_, ?_⟩
  · intro h
    unfold getSimilarFragrances
    rw [h]
  · intro target h
    unfold getSimilarFragrances
    rw [h]
    rfl
  · intro target h hq
    unfold getSimilarFragrances
    rw [h]
    simp [simSorted, hq, descSort]

/-- Witness for the amended C5 theorem: the lone-target snapshot yields
`some []`; the empty snapshot yields `none`. -/
theorem similar_not_found_semantics_witness :
    getSimilarFragrances [demoLoneT] "t" 6 = some [] ∧
    getSimilarFragrances [] "t" 6 = none :=
  ⟨(similar_not_found_semantics [demoLoneT] "t" 6).2.2 demoLoneT (by decide)
      (by decide),
   (similar_not_found_semantics [] "t" 6).1 rfl⟩

/-! ## Brand counts (`routes/discovery.py` `list_brands`) -/

/-- One iteration of the count loop:
`bid = frag.get("brand", {}).get("id", ""); if bid: count_map[bid] += 1`. -/
def countStep (m : String → ℕ) (f : Fragrance) : String → ℕ :=
  if f.brand.id ≠ "" then
    fun k => if k = f.brand.id then m f.brand.id + 1 else m k
  else m

/-- The `count_map` built by `list_brands` over the cached fragrances
(missing keys read as 0). -/
def countMapFold (frags : List Fragrance) : String → ℕ :=
  frags.foldl countStep (fun _ => 0)

/-- `list_brands` (discovery.py lines 22–49): every cached brand,
unchanged, paired with `count_map.get(brand["id"], 0)`. -/
def listBrands (brands : List Brand) (frags : List Fragrance) :
    List (Brand × ℕ) :=
  brands.map (fun b => (b, countMapFold frags b.id))

theorem countMapFold_go (k : String) (hk : k ≠ "") (frags : List Fragrance) :
    ∀ m : String → ℕ,
      (frags.foldl countStep m) k =
        m k + (frags.filter (fun f => f.brand.id == k)).length := by
  induction frags with
  | nil => intro m; simp
  | cons f t ih =>
    intro m
    rw [List.foldl_cons]
    by_cases hb : f.brand.id = ""
    · have hne : ¬ f.brand.id == k := by simp [hb]; exact fun h => hk h.symm
      rw [List.filter_cons_of_neg (by simpa using hne)]
      have hstep : countStep m f = m := by simp [countStep, hb]
      rw [hstep, ih m]
    · by_cases hfk : f.brand.id = k
      · rw [List.filter_cons_of_pos (by simp [hfk]), ih (countStep m f)]
        have hstep : countStep m f k = m k + 1 := by
          unfold countStep
          rw [if_pos hb]
          show (if k = f.brand.id then m f.brand.id + 1 else m k) = m k + 1
          rw [if_pos hfk.symm, hfk]
        rw [hstep, List.length_cons]
        ring
      · rw [List.filter_cons_of_neg (by simp [hfk]), ih (countStep m f)]
        have hstep : countStep m f k = m k := by
          unfold countStep
          rw [if_pos hb]
          show (if k = f.brand.id then m f.brand.id + 1 else m k) = m k
          rw [if_neg (fun h => hfk h.symm)]
        rw [hstep]

theorem countMapFold_eq (frags : List Fragrance) (k : String) (hk : k ≠ "") :
    countMapFold frags k = (frags.filter (fun f => f.brand.id == k)).length := by
  unfold countMapFold
  rw [countMapFold_go k hk frags (fun _ => 0)]
  simp

/-- C10 — Brand-count consistency: `list_brands` returns every brand of
the snapshot exactly once, in order and with its fields unchanged, and
(for the nonempty document ids Firestore guarantees) pairs it with the
number of cached fragrances whose embedded brand id equals the brand's
id; a brand with no fragrances gets count 0 (the empty filter), and a
fragrance whose embedded brand id is empty or matches no listed brand is
counted under no listed brand. -/
theorem brand_counts (brands : List Brand) (frags : List Fragrance)
    (hids : ∀ b ∈ brands, b.id ≠ "") :
    (listBrands brands frags).map Prod.fst = brands ∧
    listBrands brands frags =
      brands.map (fun b =>
        (b, (frags.filter (fun f => f.brand.id == b.id)).length)) := by
  constructor
  · unfold listBrands
    rw [List.map_map]
    exact List.map_id _
  · unfold listBrands
    refine List.map_congr_left ?_
    intro b hb
    rw [countMapFold_eq frags b.id (hids b hb)]

/-- Brands for the C10 witness: one with a fragrance, one without. -/
def demoBrandsC10 : List Brand :=
  [{ id := "b1", name := "Acme", country := "FR", foundedYear := none },
   { id := "b2", name := "Zenith", country := "IT", foundedYear := some 1900 }]

/-- Fragrances for the C10 witness: one of brand `b1`, one with an empty
embedded brand id, one whose brand id matches no listed brand. -/
def demoFragsC10 : List Fragrance :=
  [{ demoLoneT with id := "f1", brand := placeholderBrand "b1" },
   { demoLoneT with id := "f2", brand := placeholderBrand "" },
   { demoLoneT with id := "f3", brand := placeholderBrand "zzz" }]

/-- Witness for C10: brand `b1` counts 1, brand `b2` counts 0; the
empty-id and unmatched fragrances count nowhere. -/
theorem brand_counts_witness :
    (listBrands demoBrandsC10 demoFragsC10).map Prod.fst = demoBrandsC10 ∧
    listBrands demoBrandsC10 demoFragsC10 =
      demoBrandsC10.map (fun b =>
        (b, (demoFragsC10.filter (fun f => f.brand.id == b.id)).length)) :=
  brand_counts demoBrandsC10 demoFragsC10 (by decide)

/-! ### Similarity ranking properties (C4) -/

/-- The similarity score, written as the spec's formula:
`2·jaccard + 0.15·[sameBrand] + 0.10·[sameGender] + 0.05·[sameConc]`. -/
theorem similarityScore_formula (target other : Fragrance)
    (h : target.id ≠ other.id) :
    similarityScore target other =
      2 * jaccard (noteIdsFor target) (noteIdsFor other) +
      (if target.brand.id = other.brand.id then 3 / 20 else 0) +
      (if target.gender = other.gender then 1 / 10 else 0) +
      (if target.concentration = other.concentration then 1 / 20 else 0) := by
  unfold similarityScore jaccard
  rw [if_neg h]
  dsimp only
  by_cases hA : noteIdsFor target = ∅ ∨ noteIdsFor other = ∅
  · rw [if_pos hA, if_pos hA]
  · have hu : ¬ noteIdsFor target ∪ noteIdsFor other = ∅ := by
      intro hu
      exact hA (Or.inl (Finset.union_eq_empty.mp hu).1)
    rw [if_neg hA, if_neg hA, if_neg hu]

theorem simSorted_snd_eq (frags : List Fragrance) (fid : String)
    (target : Fragrance) :
    ∀ p ∈ simSorted frags fid target, p.2 = similarityScore target p.1 := by
  intro p hp
  have hp' : p ∈ simQualifying frags fid target :=
    ((descSort_perm Prod.snd _).mem_iff).mp hp
  unfold simQualifying at hp'
  rw [List.mem_filter] at hp'
  obtain ⟨hpm, _⟩ := hp'
  rw [List.mem_map] at hpm
  obtain ⟨o, _, rfl⟩ := hpm
  rfl

theorem simQualifying_map_fst (frags : List Fragrance) (fid : String)
    (target : Fragrance) :
    (simQualifying frags fid target).map Prod.fst
      = (simCandidates frags fid).filter
          (fun c => decide (0 < similarityScore target c)) := by
  unfold simQualifying
  rw [List.filter_map, List.map_map]
  show List.map (fun o => o)
      (List.filter (fun c => decide (0 < similarityScore target c))
        (simCandidates frags fid))
    = List.filter (fun c => decide (0 < similarityScore target c))
        (simCandidates frags fid)
  exact List.map_id' _

theorem map_fst_filter_score (target : Fragrance) (q : ℚ) :
    ∀ l : List (Fragrance × ℚ), (∀ p ∈ l, p.2 = similarityScore target p.1) →
      (l.map Prod.fst).filter (fun c => similarityScore target c == q)
        = (l.filter (fun p => p.2 == q)).map Prod.fst := by
  intro l
  induction l with
  | nil => intro _; rfl
  | cons p tl ih =>
    intro hinv
    have hp2 : p.2 = similarityScore target p.1 :=
      hinv p (List.mem_cons_self p tl)
    have htl := ih (fun x hx => hinv x (List.mem_cons_of_mem p hx))
    simp only [List.map_cons, List.filter_cons, ← hp2]
    cases h : (p.2 == q) with
    | true => simp [htl]
    | false => simp [htl]

/-- Demo target for C4: brand `b`, gender `g`, concentration `c`, no
notes. -/
def demoCT : Fragrance := { demoLoneT with gender := "g", concentration := "c" }

/-- Demo candidate A: different brand, same gender and concentration as
the target — score `0.10 + 0.05 = 0.15`. -/
def demoCA : Fragrance :=
  { demoCT with id := "a", brand := placeholderBrand "x" }

/-- Demo candidate B: same brand as the target, different gender and
concentration — score `0.15`. -/
def demoCB : Fragrance :=
  { demoCT with id := "bb", gender := "gz", concentration := "cz" }

/-- Snapshot for the C4 counterexample and witness. -/
def demoFragsC4 : List Fragrance := [demoCT, demoCA, demoCB]

theorem demoScoreA : similarityScore demoCT demoCA = 3 / 20 := by
  have h1 : noteIdsFor demoCT = ∅ := by decide
  rw [similarityScore_formula demoCT demoCA (by decide)]
  rw [jaccard, if_pos (Or.inl h1)]
  rw [if_neg (by decide), if_pos (by decide), if_pos (by decide)]
  norm_num

theorem demoScoreB : similarityScore demoCT demoCB = 3 / 20 := by
  have h1 : noteIdsFor demoCT = ∅ := by decide
  rw [similarityScore_formula demoCT demoCB (by decide)]
  rw [jaccard, if_pos (Or.inl h1)]
  rw [if_pos (by decide), if_neg (by decide), if_neg (by decide)]
  norm_num

theorem demoQualifyingC4 :
    simQualifying demoFragsC4 "t" demoCT = [(demoCA, 3 / 20), (demoCB, 3 / 20)] := by
  unfold simQualifying
  rw [show simCandidates demoFragsC4 "t" = [demoCA, demoCB] from by decide]
  simp only [List.map_cons, List.map_nil]
  rw [demoScoreA, demoScoreB]
  have hpos : ((0 : ℚ) < 3 / 20) := by norm_num
  simp [List.filter_cons, hpos]

theorem demoSortedC4 :
    simSorted demoFragsC4 "t" demoCT = [(demoCA, 3 / 20), (demoCB, 3 / 20)] := by
  unfold simSorted descSort
  rw [demoQualifyingC4]
  simp [List.insertionSort, List.orderedInsert]

/-- C4 counterexample: target `demoCT` with candidates `demoCA` (other
brand, but matching gender and concentration) and `demoCB` (the
target's brand, matching nothing else). Both have equal note overlap
with the target (no shared notes, equal Jaccard), `demoCB` shares the
target's brand and `demoCA` does not — yet the route ranks `demoCA`
first: the claim "for candidates with equal note overlap, the one
sharing the target's brand ranks strictly above the one that does not"
fails, because the flat gender+concentration bonuses (0.10 + 0.05) tie
the flat brand bonus (0.15) and the stable sort then keeps input
order. -/
theorem similarity_brand_tiebreak_counterexample :
    getSimilarFragrances demoFragsC4 "t" 6 = some [demoCA, demoCB] ∧
    jaccard (noteIdsFor demoCT) (noteIdsFor demoCA)
      = jaccard (noteIdsFor demoCT) (noteIdsFor demoCB) ∧
    demoCT.brand.id = demoCB.brand.id ∧
    demoCT.brand.id ≠ demoCA.brand.id := by
  refine ⟨?_, ?_, by decide, by decide⟩
  · unfold getSimilarFragrances
    rw [show List.find? (fun f => f.id == "t") demoFragsC4 = some demoCT from
      by decide]
    show some (((simSorted demoFragsC4 "t" demoCT).take
      (max (6 : Int) 0).toNat).map Prod.fst) = some [demoCA, demoCB]
    rw [demoSortedC4]
    rfl
  · have h1 : noteIdsFor demoCT = ∅ := by decide
    rw [jaccard, jaccard, if_pos (Or.inl h1), if_pos (Or.inl h1)]

/-- C4 amended — similarity scoring and ranking: for distinct ids the
score is `2·jaccard + 0.15·[sameBrand] + 0.10·[sameGender] +
0.05·[sameConcentration]` with `jaccard = |A∩B|/|A∪B|` (0 when either
note-id set is empty); the response is the ranked list truncated to the
requested limit; the ranked list is exactly (a permutation of) the
candidates with strictly positive score — zero-score candidates are
excluded; it is ordered by score descending; ties preserve candidate
input order (stated via filtering at every score value); and the
brand-sharing candidate of an equal-note-overlap pair ranks strictly
above the non-sharing one provided the two candidates match the target's
gender and concentration alike (without that proviso the claim fails,
see the counterexample). -/
theorem similarity_ranking (frags : List Fragrance) (fid : String)
    (limit : Int) (target : Fragrance)
    (hfind : frags.find? (fun f => f.id == fid) = some target) :
    (∀ T c : Fragrance, T.id ≠ c.id →
      similarityScore T c =
        2 * jaccard (noteIdsFor T) (noteIdsFor c) +
        (if T.brand.id = c.brand.id then 3 / 20 else 0) +
        (if T.gender = c.gender then 1 / 10 else 0) +
        (if T.concentration = c.concentration then 1 / 20 else 0)) ∧
    getSimilarFragrances frags fid limit =
      some (((simSorted frags fid target).map Prod.fst).take
        (max limit 0).toNat) ∧
    List.Perm ((simSorted frags fid target).map Prod.fst)
      ((simCandidates frags fid).filter
        (fun c => decide (0 < similarityScore target c))) ∧
    (∀ c : Fragrance, ¬ (0 < similarityScore target c) →
      c ∉ (simSorted frags fid target).map Prod.fst) ∧
    ((simSorted frags fid target).map Prod.fst).Pairwise
      (fun a b => similarityScore target b ≤ similarityScore target a) ∧
    (∀ q : ℚ,
      ((simSorted frags fid target).map Prod.fst).filter
          (fun c => similarityScore target c == q)
        = ((simCandidates frags fid).filter
            (fun c => decide (0 < similarityScore target c))).filter
            (fun c => similarityScore target c == q)) ∧
    (∀ cA cB : Fragrance, target.id ≠ cA.id → target.id ≠ cB.id →
      jaccard (noteIdsFor target) (noteIdsFor cA)
        = jaccard (noteIdsFor target) (noteIdsFor cB) →
      (target.gender = cA.gender ↔ target.gender = cB.gender) →
      (target.concentration = cA.concentration ↔
        target.concentration = cB.concentration) →
      target.brand.id = cB.brand.id → target.brand.id ≠ cA.brand.id →
      similarityScore target cA < similarityScore target cB ∧
      ∀ (i j : ℕ)
        (hi : i < ((simSorted frags fid target).map Prod.fst).length)
        (hj : j < ((simSorted frags fid target).map Prod.fst).length),
        ((simSorted frags fid target).map Prod.fst).get ⟨i, hi⟩ = cA →
        ((simSorted frags fid target).map Prod.fst).get ⟨j, hj⟩ = cB →
        j < i) := by
  have hsnd := simSorted_snd_eq frags fid target
  have hperm : List.Perm ((simSorted frags fid target).map Prod.fst)
      ((simCandidates frags fid).filter
        (fun c => decide (0 < similarityScore target c))) := by
    rw [← simQualifying_map_fst]
    exact (descSort_perm Prod.snd _).map Prod.fst
  have hpair : ((simSorted frags fid target).map Prod.fst).Pairwise
      (fun a b => similarityScore target b ≤ similarityScore target a) := by
    rw [List.pairwise_map]
    refine (descSort_pairwise Prod.snd _).imp_of_mem ?_
    intro p r hp hr hle
    rw [← hsnd p hp, ← hsnd r hr]
    exact hle
  refine ⟨fun T c h => similarityScore_formula T c h, ?_, hperm, ?_, hpair,
    ?_, ?_⟩
  · unfold getSimilarFragrances
    rw [hfind]
    show some (((simSorted frags fid target).take (max limit 0).toNat).map
      Prod.fst) = _
    rw [List.map_take]
  · intro c hc hmem
    have := hperm.mem_iff.mp hmem
    rw [List.mem_filter] at this
    exact hc (of_decide_eq_true this.2)
  · intro q
    rw [map_fst_filter_score target q _ hsnd,
      show (simSorted frags fid target).filter (fun p => p.2 == q)
          = (simQualifying frags fid target).filter (fun p => p.2 == q) from
        descSort_stable Prod.snd q _,
      ← map_fst_filter_score target q _ (fun p hp => by
        have hp' : p ∈ simSorted frags fid target :=
          ((descSort_perm Prod.snd _).mem_iff).mpr hp
        exact hsnd p hp'),
      simQualifying_map_fst]
  · intro cA cB hiA hiB hjac hg hc hbB hbA
    have hscore : similarityScore target cA < similarityScore target cB := by
      rw [similarityScore_formula target cA hiA,
        similarityScore_formula target cB hiB, hjac, if_pos hbB, if_neg hbA]
      by_cases hg1 : target.gender = cA.gender
      · rw [if_pos hg1, if_pos (hg.mp hg1)]
        by_cases hc1 : target.concentration = cA.concentration
        · rw [if_pos hc1, if_pos (hc.mp hc1)]
          linarith
        · rw [if_neg hc1, if_neg (fun h => hc1 (hc.mpr h))]
          linarith
      · rw [if_neg hg1, if_neg (fun h => hg1 (hg.mpr h))]
        by_cases hc1 : target.concentration = cA.concentration
        · rw [if_pos hc1, if_pos (hc.mp hc1)]
          linarith
        · rw [if_neg hc1, if_neg (fun h => hc1 (hc.mpr h))]
          linarith
    refine ⟨hscore, ?_⟩
    intro i j hi hj hgi hgj
    by_contra hji
    push_neg at hji
    rcases Nat.lt_or_ge i j with hij | hij
    · have := List.pairwise_iff_get.mp hpair ⟨i, hi⟩ ⟨j, hj⟩ hij
      rw [hgi, hgj] at this
      exact absurd hscore (not_lt.mpr this)
    · have hije : i = j := le_antisymm hji hij
      subst hije
      rw [hgi] at hgj
      subst hgj
      exact absurd hscore (lt_irrefl _)

/-- Witness for the amended C4 theorem at the concrete three-fragrance
snapshot of the counterexample. -/
theorem similarity_ranking_witness :
    (∀ T c : Fragrance, T.id ≠ c.id →
      similarityScore T c =
        2 * jaccard (noteIdsFor T) (noteIdsFor c) +
        (if T.brand.id = c.brand.id then 3 / 20 else 0) +
        (if T.gender = c.gender then 1 / 10 else 0) +
        (if T.concentration = c.concentration then 1 / 20 else 0)) ∧
    getSimilarFragrances demoFragsC4 "t" 6 =
      some (((simSorted demoFragsC4 "t" demoCT).map Prod.fst).take
        (max (6 : Int) 0).toNat) ∧
    List.Perm ((simSorted demoFragsC4 "t" demoCT).map Prod.fst)
      ((simCandidates demoFragsC4 "t").filter
        (fun c => decide (0 < similarityScore demoCT c))) ∧
    (∀ c : Fragrance, ¬ (0 < similarityScore demoCT c) →
      c ∉ (simSorted demoFragsC4 "t" demoCT).map Prod.fst) ∧
    ((simSorted demoFragsC4 "t" demoCT).map Prod.fst).Pairwise
      (fun a b => similarityScore demoCT b ≤ similarityScore demoCT a) ∧
    (∀ q : ℚ,
      ((simSorted demoFragsC4 "t" demoCT).map Prod.fst).filter
          (fun c => similarityScore demoCT c == q)
        = ((simCandidates demoFragsC4 "t").filter
            (fun c => decide (0 < similarityScore demoCT c))).filter
            (fun c => similarityScore demoCT c == q)) ∧
    (∀ cA cB : Fragrance, demoCT.id ≠ cA.id → demoCT.id ≠ cB.id →
      jaccard (noteIdsFor demoCT) (noteIdsFor cA)
        = jaccard (noteIdsFor demoCT) (noteIdsFor cB) →
      (demoCT.gender = cA.gender ↔ demoCT.gender = cB.gender) →
      (demoCT.concentration = cA.concentration ↔
        demoCT.concentration = cB.concentration) →
      demoCT.brand.id = cB.brand.id → demoCT.brand.id ≠ cA.brand.id →
      similarityScore demoCT cA < similarityScore demoCT cB ∧
      ∀ (i j : ℕ)
        (hi : i < ((simSorted demoFragsC4 "t" demoCT).map Prod.fst).length)
        (hj : j < ((simSorted demoFragsC4 "t" demoCT).map Prod.fst).length),
        ((simSorted demoFragsC4 "t" demoCT).map Prod.fst).get ⟨i, hi⟩ = cA →
        ((simSorted demoFragsC4 "t" demoCT).map Prod.fst).get ⟨j, hj⟩ = cB →
        j < i) :=
  similarity_ranking demoFragsC4 "t" 6 demoCT (by decide)

/-! ## Write-side normalization
(`FragranceService._normalize_for_write`, fragrance_service.py lines
131–185): accepts either the frontend shape (nested `brand` object,
note-object arrays) or the normalized shape (`brandId`, note-id arrays)
and extracts identifiers; absent keys pass through (partial updates). -/

/-- The `brand` key of a write payload: a nested dict or a bare id. -/
inductive BrandField where
  | obj (b : Brand)
  | strId (s : String)
deriving DecidableEq

/-- One note layer of a write payload: note objects (dicts) or bare id
strings (`items and isinstance(items[0], dict)` distinguishes them). -/
inductive NoteLayerPayload where
  | objs (ns : List Note)
  | ids (ss : List String)
deriving DecidableEq

/-- The `notes` key of a write payload; an absent layer reads as
`.ids []` (`raw.get(layer, [])`). -/
structure PayloadNotes where
  top : NoteLayerPayload
  middle : NoteLayerPayload
  base : NoteLayerPayload
deriving DecidableEq

/-- The `price` key of a write payload; `amount` is accessed with
`data["price"]["amount"]` and therefore required. -/
structure PricePayload where
  amount : ℚ
  currency : Option String
  size : Option String
deriving DecidableEq

/-- A write payload (`data` as passed to `_normalize_for_write`); the
`"price" in data and data["price"] is not None` test is collapsed into
one `Option`. -/
structure WritePayload where
  name : Option String
  releaseYear : Option Int
  concentration : Option String
  gender : Option String
  description : Option String
  perfumer : Option String
  imageUrl : Option String
  brand : Option BrandField
  brandId : Option String
  notes : Option PayloadNotes
  ratings : Option RawRatings
  price : Option PricePayload
deriving DecidableEq

/-- The three extracted note-id arrays of a normalized document. -/
structure NormNotes where
  top : List String
  middle : List String
  base : List String
deriving DecidableEq

/-- The Firestore-friendly document `_normalize_for_write` produces. -/
structure NormDoc where
  name : Option String
  releaseYear : Option Int
  concentration : Option String
  gender : Option String
  description : Option String
  perfumer : Option String
  imageUrl : Option String
  brandId : Option String
  notes : Option NormNotes
  ratings : Option Ratings
  price : Option Price
deriving DecidableEq

/-- One layer: `[n["id"] for n in items]` when the items are dicts,
`list(items)` otherwise (an empty list takes the latter branch; both
yield `[]`). -/
def extractLayer : NoteLayerPayload → List String
  | .objs ns => ns.map Note.id
  | .ids ss => ss

/-- `_normalize_for_write`: scalars pass through when present; `brand`
(dict or string) wins over `brandId`; note layers are reduced to id
arrays; `ratings` is rebuilt with 0 defaults; `price` is rebuilt with
`"USD"`/`""` defaults around the required `amount`. -/
def normalizeForWrite (data : WritePayload) : NormDoc :=
  { name := data.name
    releaseYear := data.releaseYear
    concentration := data.concentration
    gender := data.gender
    description := data.description
    perfumer := data.perfumer
    imageUrl := data.imageUrl
    brandId := match data.brand with
      | some (.obj b) => some b.id
      | some (.strId s) => some s
      | none => data.brandId
    notes := data.notes.map (fun r =>
      { top := extractLayer r.top, middle := extractLayer r.middle,
        base := extractLayer r.base })
    ratings := data.ratings.map mkRatings
    price := data.price.map (fun p =>
      { amount := p.amount, currency := p.currency.getD "USD",
        size := p.size.getD "" }) }

/-- A stored normalized document, viewed as a write payload (the same
dict handed back to `_normalize_for_write`): note layers are bare id
arrays, the brand reference is under `brandId`. A stored price always
carries `amount`; one without it would raise `KeyError` in the source
and is dropped here. -/
def docToPayload (doc : FragranceDoc) : WritePayload :=
  { name := doc.name, releaseYear := doc.releaseYear,
    concentration := doc.concentration, gender := doc.gender,
    description := doc.description, perfumer := doc.perfumer,
    imageUrl := doc.imageUrl, brand := none, brandId := doc.brandId,
    notes := doc.notes.map (fun r =>
      { top := .ids (r.top.getD []), middle := .ids (r.middle.getD []),
        base := .ids (r.base.getD []) })
    ratings := doc.ratings
    price := doc.price.bind (fun p => p.amount.map (fun a =>
      { amount := a, currency := p.currency, size := p.size })) }

/-- The document created in the store from a normalized write, with the
Firestore-assigned id `i`. -/
def docOfNorm (i : String) (d : NormDoc) : FragranceDoc :=
  { id := i, name := d.name, brandId := d.brandId,
    releaseYear := d.releaseYear, concentration := d.concentration,
    gender := d.gender, description := d.description,
    perfumer := d.perfumer, imageUrl := d.imageUrl,
    notes := d.notes.map (fun n =>
      { top := some n.top, middle := some n.middle, base := some n.base })
    ratings := d.ratings.map (fun r =>
      { overall := some r.overall, longevity := some r.longevity,
        sillage := some r.sillage, value := some r.value,
        reviewCount := some r.reviewCount })
    price := d.price.map (fun p =>
      { amount := some p.amount, currency := some p.currency,
        size := some p.size }) }

/-- A resolved fragrance, viewed as a write payload (the denormalized
dict a frontend writer submits): nested brand object, note-object
arrays. -/
def fragranceToPayload (f : Fragrance) : WritePayload :=
  { name := some f.name, releaseYear := some f.releaseYear,
    concentration := some f.concentration, gender := some f.gender,
    description := some f.description, perfumer := f.perfumer,
    imageUrl := some f.imageUrl, brand := some (.obj f.brand),
    brandId := none,
    notes := some { top := .objs f.notes.top, middle := .objs f.notes.middle,
                    base := .objs f.notes.base }
    ratings := some { overall := some f.ratings.overall,
                      longevity := some f.ratings.longevity,
                      sillage := some f.ratings.sillage,
                      value := some f.ratings.value,
                      reviewCount := some f.ratings.reviewCount }
    price := f.price.map (fun p =>
      { amount := p.amount, currency := some p.currency,
        size := some p.size }) }

/-- The round-trip pipeline of C7:
`normalizeFragranceForWrite(resolveFragrance(normalizeFragranceForWrite(X)))`,
with `i` the Firestore id assigned on create and `bm`/`nm` the lookup
tables used for resolution. -/
def roundTrip (i : String) (bm : String → Option Brand)
    (nm : String → Option Note) (X : FragranceDoc) : NormDoc :=
  normalizeForWrite (fragranceToPayload
    (resolveWithCache (docOfNorm i (normalizeForWrite (docToPayload X))) bm nm))

/-- C7 — Round-trip: for a normalized fragrance document `X` whose
referenced brand id and note ids all exist in the (well-formed) lookup
tables, the write → resolve → write pipeline reproduces the
identifier-level content of `X`: the `brandId` and the three note-id
arrays, order included (absent arrays reproduce as the empty arrays they
default to). Embedded-object fields (name, country, …) are not part of
the statement. -/
theorem round_trip (X : FragranceDoc) (i : String)
    (bm : String → Option Brand) (nm : String → Option Note)
    (hbm : wfBrandMap bm) (hnm : wfNoteMap nm)
    (b₀ : String) (hb : X.brandId = some b₀) (hbex : (bm b₀).isSome = true)
    (hnex : ∀ nid ∈ topIds X ++ middleIds X ++ baseIds X,
      (nm nid).isSome = true) :
    (roundTrip i bm nm X).brandId = some b₀ ∧
    (roundTrip i bm nm X).notes =
      some { top := topIds X, middle := middleIds X, base := baseIds X } := by
  have hN : (normalizeForWrite (docToPayload X)).brandId = some b₀ := by
    simp [normalizeForWrite, docToPayload, hb]
  have hDoc : (docOfNorm i (normalizeForWrite (docToPayload X))).brandId
      = some b₀ := hN
  have hbrand : (resolveWithCache
      (docOfNorm i (normalizeForWrite (docToPayload X))) bm nm).brand.id
      = b₀ := by
    unfold resolveWithCache
    dsimp only
    rw [hDoc]
    cases hlook : bm ((some b₀).getD "") with
    | none => simp [hlook, placeholderBrand]
    | some br =>
      simp only [Option.getD_some] at hlook ⊢
      exact hbm b₀ br hlook
  have htop : (resolveWithCache
      (docOfNorm i (normalizeForWrite (docToPayload X))) bm nm).notes.top
      = resolveNoteIds nm (topIds X) := by
    cases hX : X.notes with
    | none =>
      simp [resolveWithCache, docOfNorm, normalizeForWrite, docToPayload, hX,
        emptyRawNotes, topIds]
    | some r =>
      simp [resolveWithCache, docOfNorm, normalizeForWrite, docToPayload, hX,
        extractLayer, topIds]
  have hmid : (resolveWithCache
      (docOfNorm i (normalizeForWrite (docToPayload X))) bm nm).notes.middle
      = resolveNoteIds nm (middleIds X) := by
    cases hX : X.notes with
    | none =>
      simp [resolveWithCache, docOfNorm, normalizeForWrite, docToPayload, hX,
        emptyRawNotes, middleIds]
    | some r =>
      simp [resolveWithCache, docOfNorm, normalizeForWrite, docToPayload, hX,
        extractLayer, middleIds]
  have hbase : (resolveWithCache
      (docOfNorm i (normalizeForWrite (docToPayload X))) bm nm).notes.base
      = resolveNoteIds nm (baseIds X) := by
    cases hX : X.notes with
    | none =>
      simp [resolveWithCache, docOfNorm, normalizeForWrite, docToPayload, hX,
        emptyRawNotes, baseIds]
    | some r =>
      simp [resolveWithCache, docOfNorm, normalizeForWrite, docToPayload, hX,
        extractLayer, baseIds]
  unfold roundTrip
  set R := resolveWithCache (docOfNorm i (normalizeForWrite (docToPayload X)))
    bm nm with hR
  constructor
  · show (normalizeForWrite (fragranceToPayload R)).brandId = some b₀
    simp only [normalizeForWrite, fragranceToPayload]
    rw [hbrand]
  · show (normalizeForWrite (fragranceToPayload R)).notes = _
    simp only [normalizeForWrite, fragranceToPayload, Option.map_some']
    rw [htop, hmid, hbase]
    simp only [extractLayer]
    rw [resolveNoteIds_ids nm hnm, resolveNoteIds_ids nm hnm,
      resolveNoteIds_ids nm hnm]

/-- Note table for the C7 witness: contains `"n1"` and `"n2"`. -/
def demoNmC7 : String → Option Note :=
  buildNoteMap [{ id := "n1", name := some "Bergamot", family := some "Citrus" },
                { id := "n2", name := some "Cedar", family := some "Woody" }]

/-- Normalized fragrance for the C7 witness: references brand `"b1"` and
notes `"n1"`, `"n2"`, all present in the tables. -/
def demoXC7 : FragranceDoc :=
  { id := "f9", name := some "X", brandId := some "b1",
    releaseYear := some 2001, concentration := some "EDT",
    gender := some "Unisex", description := none, perfumer := none,
    imageUrl := none,
    notes := some { top := some ["n1", "n2"], middle := some [],
                    base := some ["n2"] },
    ratings := none, price := none }

/-- Witness for C7 at a concrete document whose brand and note
references all exist in the tables. -/
theorem round_trip_witness :
    (roundTrip "f9" demoBmC1 demoNmC7 demoXC7).brandId = some "b1" ∧
    (roundTrip "f9" demoBmC1 demoNmC7 demoXC7).notes =
      some { top := topIds demoXC7, middle := middleIds demoXC7,
             base := baseIds demoXC7 } :=
  round_trip demoXC7 "f9" demoBmC1 demoNmC7 (wfBrandMap_buildBrandMap _)
    (wfNoteMap_buildNoteMap _) "b1" rfl (by decide) (by decide)

/-! ## Concurrency: single-flight reload (C9)

An interleaving semantics of N request threads concurrently running
`_ensure_loaded` (cache.py lines 71–79) over the shared state
(`_lock`, `_loaded_at`, and the published snapshot, abstracted to its
generation number). Each thread's program:

1. `check1` — the unlocked staleness test; if fresh, return (done).
2. `acquire` — block on `self._lock`.
3. `check2` — the double-check under the lock; if fresh, skip the
   reload, else perform `_load` (atomic here: its only write to shared
   state is the final `loadedAt`/snapshot publication).
4. `release` — release the lock and return (done).

A completed reload increments `gen`; a finishing thread records the
generation it observes in `obs`. All staleness tests of one staleness
event sample the same wall-clock time `now`. -/

/-- Program counter of a reader thread in `_ensure_loaded`. -/
inductive ThreadPC where
  | check1
  | acquire
  | check2
  | release
  | done
deriving DecidableEq

/-- A reader thread: where it is, and the snapshot generation it
returned with (once done). -/
structure ReaderThread where
  pc : ThreadPC
  obs : Option ℕ
deriving DecidableEq

/-- The shared cache state plus all reader threads. -/
structure ConcState where
  lock : Option ℕ
  loadedAt : ℚ
  gen : ℕ
  threads : List ReaderThread
deriving DecidableEq

/-- One scheduler step: thread `t` executes its next instruction (a
no-op when `t` is out of range, blocked on the lock, or done). -/
def step (now : ℚ) (s : ConcState) (t : ℕ) : ConcState :=
  match s.threads.get? t with
  | none => s
  | some th =>
    match th.pc with
    | .check1 =>
      if now - s.loadedAt < TTL_SECONDS then
        { s with threads := s.threads.set t { pc := .done, obs := some s.gen } }
      else
        { s with threads := s.threads.set t { th with pc := .acquire } }
    | .acquire =>
      match s.lock with
      | none => { s with lock := some t,
                         threads := s.threads.set t { th with pc := .check2 } }
      | some _ => s
    | .check2 =>
      if now - s.loadedAt < TTL_SECONDS then
        { s with threads := s.threads.set t { th with pc := .release } }
      else
        { s with loadedAt := now, gen := s.gen + 1,
                 threads := s.threads.set t { th with pc := .release } }
    | .release =>
      { s with lock := none,
               threads := s.threads.set t { pc := .done, obs := some s.gen } }
    | .done => s

/-- Run a schedule (an arbitrary interleaving) from a state. -/
def run (now : ℚ) (sched : List ℕ) (s : ConcState) : ConcState :=
  sched.foldl (step now) s

/-- N readers at the start of `_ensure_loaded` against a cache loaded at
`la₀` with generation `g₀`; the lock is free. -/
def initConc (la₀ : ℚ) (g₀ n : ℕ) : ConcState :=
  { lock := none, loadedAt := la₀, gen := g₀,
    threads := List.replicate n { pc := .check1, obs := none } }

/-- The single-flight invariant: the snapshot is either the original
stale one or the one reload's result; only the lock holder is between
`acquire` and `release`; a thread past its `check2` implies the reload
has happened; a finished thread observed, and implies, the post-reload
generation. -/
def ConcInv (now la₀ : ℚ) (g₀ : ℕ) (s : ConcState) : Prop :=
  ((s.gen = g₀ ∧ s.loadedAt = la₀) ∨ (s.gen = g₀ + 1 ∧ s.loadedAt = now)) ∧
  (∀ t th, s.threads.get? t = some th →
    (th.pc = .check2 ∨ th.pc = .release) → s.lock = some t) ∧
  (∀ t th, s.threads.get? t = some th → th.pc = .release → s.gen = g₀ + 1) ∧
  (∀ t th, s.threads.get? t = some th → th.pc = .done →
    th.obs = some (g₀ + 1) ∧ s.gen = g₀ + 1)

theorem get?_set_cases {α : Type} {l : List α} {t u : ℕ} {a b : α}
    (h : (l.set t a).get? u = some b) :
    (t = u ∧ b = a) ∨ (t ≠ u ∧ l.get? u = some b) := by
  by_cases htu : t = u
  · subst htu
    rw [List.get?_set_eq] at h
    cases hl : l.get? t with
    | none => rw [hl] at h; cases h
    | some x =>
      rw [hl] at h
      cases h
      exact Or.inl ⟨rfl, rfl⟩
  · right
    refine ⟨htu, ?_⟩
    rwa [List.get?_set_ne _ _ htu] at h

theorem step_preserves (now la₀ : ℚ) (g₀ : ℕ)
    (hstale : la₀ + TTL_SECONDS ≤ now) (s : ConcState)
    (hs : ConcInv now la₀ g₀ s) (t : ℕ) :
    ConcInv now la₀ g₀ (step now s t) := by
  obtain ⟨hsnap, hlock, hrel, hdone⟩ := hs
  cases hth : s.threads.get? t with
  | none =>
    simp only [step, hth]
    exact ⟨hsnap, hlock, hrel, hdone⟩
  | some th =>
    cases hpc : th.pc with
    | check1 =>
      simp only [step, hth, hpc]
      by_cases hfresh : now - s.loadedAt < TTL_SECONDS
      · rw [if_pos hfresh]
        have hsnap2 : s.gen = g₀ + 1 ∧ s.loadedAt = now := by
          rcases hsnap with ⟨_, hla⟩ | h2
          · rw [hla] at hfresh; exact absurd hfresh (by push_neg; linarith)
          · exact h2
        refine ⟨Or.inr hsnap2, ?_, ?_, ?_⟩
        · intro u thu hu hc
          rcases get?_set_cases hu with ⟨rfl, rfl⟩ | ⟨_, hu'⟩
          · rcases hc with h | h <;> cases h
          · exact hlock u thu hu' hc
        · intro u thu hu hc
          rcases get?_set_cases hu with ⟨rfl, rfl⟩ | ⟨_, hu'⟩
          · cases hc
          · exact hrel u thu hu' hc
        · intro u thu hu hc
          rcases get?_set_cases hu with ⟨rfl, rfl⟩ | ⟨_, hu'⟩
          · exact ⟨by rw [hsnap2.1], hsnap2.1⟩
          · exact hdone u thu hu' hc
      · rw [if_neg hfresh]
        refine ⟨hsnap, ?_, ?_, ?_⟩
        · intro u thu hu hc
          rcases get?_set_cases hu with ⟨rfl, rfl⟩ | ⟨_, hu'⟩
          · rcases hc with h | h <;> cases h
          · exact hlock u thu hu' hc
        · intro u thu hu hc
          rcases get?_set_cases hu with ⟨rfl, rfl⟩ | ⟨_, hu'⟩
          · cases hc
          · exact hrel u thu hu' hc
        · intro u thu hu hc
          rcases get?_set_cases hu with ⟨rfl, rfl⟩ | ⟨_, hu'⟩
          · cases hc
          · exact hdone u thu hu' hc
    | acquire =>
      simp only [step, hth, hpc]
      cases hl : s.lock with
      | some w =>
        simp only [hl]
        exact ⟨hsnap, hlock, hrel, hdone⟩
      | none =>
        simp only [hl]
        refine ⟨hsnap, ?_, ?_, ?_⟩
        · intro u thu hu hc
          rcases get?_set_cases hu with ⟨rfl, rfl⟩ | ⟨htu, hu'⟩
          · rfl
          · exact absurd (hl ▸ hlock u thu hu' hc) (by simp)
        · intro u thu hu hc
          rcases get?_set_cases hu with ⟨rfl, rfl⟩ | ⟨_, hu'⟩
          · cases hc
          · exact hrel u thu hu' hc
        · intro u thu hu hc
          rcases get?_set_cases hu with ⟨rfl, rfl⟩ | ⟨_, hu'⟩
          · cases hc
          · exact hdone u thu hu' hc
    | check2 =>
      have hlockt : s.lock = some t := hlock t th hth (Or.inl hpc)
      simp only [step, hth, hpc]
      by_cases hfresh : now - s.loadedAt < TTL_SECONDS
      · rw [if_pos hfresh]
        have hgen : s.gen = g₀ + 1 := by
          rcases hsnap with ⟨_, hla⟩ | h2
          · rw [hla] at hfresh; exact absurd hfresh (by push_neg; linarith)
          · exact h2.1
        refine ⟨hsnap, ?_, ?_, ?_⟩
        · intro u thu hu hc
          rcases get?_set_cases hu with ⟨rfl, rfl⟩ | ⟨_, hu'⟩
          · exact hlockt
          · exact hlock u thu hu' hc
        · intro u thu hu hc
          rcases get?_set_cases hu with ⟨rfl, rfl⟩ | ⟨_, hu'⟩
          · exact hgen
          · exact hrel u thu hu' hc
        · intro u thu hu hc
          rcases get?_set_cases hu with ⟨rfl, rfl⟩ | ⟨_, hu'⟩
          · cases hc
          · exact hdone u thu hu' hc
      · rw [if_neg hfresh]
        have hgen : s.gen = g₀ := by
          rcases hsnap with h1 | ⟨_, hla⟩
          · exact h1.1
          · rw [hla] at hfresh
            exact absurd hfresh (by push_neg; norm_num [TTL_SECONDS])
        refine ⟨Or.inr ⟨by rw [hgen], rfl⟩, ?_, ?_, ?_⟩
        · intro u thu hu hc
          rcases get?_set_cases hu with ⟨rfl, rfl⟩ | ⟨_, hu'⟩
          · exact hlockt
          · exact hlock u thu hu' hc
        · intro u thu hu hc
          rcases get?_set_cases hu with ⟨rfl, rfl⟩ | ⟨_, hu'⟩
          · rw [hgen]
          · rw [hgen]
        · intro u thu hu hc
          rcases get?_set_cases hu with ⟨rfl, rfl⟩ | ⟨_, hu'⟩
          · cases hc
          · obtain ⟨_, hg⟩ := hdone u thu hu' hc
            exact absurd (hgen ▸ hg) (by simp)
    | release =>
      have hgen : s.gen = g₀ + 1 := hrel t th hth hpc
      simp only [step, hth, hpc]
      refine ⟨hsnap, ?_, ?_, ?_⟩
      · intro u thu hu hc
        rcases get?_set_cases hu with ⟨rfl, rfl⟩ | ⟨htu, hu'⟩
        · rcases hc with h | h <;> cases h
        · have hlu := hlock u thu hu' hc
          have hlt := hlock t th hth (Or.inr hpc)
          rw [hlu] at hlt
          cases hlt
          exact absurd rfl htu
      · intro u thu hu hc
        rcases get?_set_cases hu with ⟨rfl, rfl⟩ | ⟨_, hu'⟩
        · cases hc
        · exact hrel u thu hu' hc
      · intro u thu hu hc
        rcases get?_set_cases hu with ⟨rfl, rfl⟩ | ⟨_, hu'⟩
        · exact ⟨by rw [hgen], hgen⟩
        · exact hdone u thu hu' hc
    | done =>
      simp only [step, hth, hpc]
      exact ⟨hsnap, hlock, hrel, hdone⟩

theorem run_preserves (now la₀ : ℚ) (g₀ : ℕ)
    (hstale : la₀ + TTL_SECONDS ≤ now) (sched : List ℕ) :
    ∀ s : ConcState, ConcInv now la₀ g₀ s →
      ConcInv now la₀ g₀ (run now sched s) := by
  induction sched with
  | nil => intro s hs; exact hs
  | cons t ts ih =>
    intro s hs
    rw [run, List.foldl_cons]
    exact ih _ (step_preserves now la₀ g₀ hstale s hs t)

theorem initConc_inv (now la₀ : ℚ) (g₀ n : ℕ) :
    ConcInv now la₀ g₀ (initConc la₀ g₀ n) := by
  refine ⟨Or.inl ⟨rfl, rfl⟩, ?_, ?_, ?_⟩ <;>
    intro t th hth hc <;>
    have := List.eq_of_mem_replicate (List.get?_mem hth) <;>
    subst this
  · rcases hc with h | h <;> cases h
  · cases hc
  · cases hc

/-- C9 — Single-flight reload: from a stale (or never-loaded) cache, any
interleaving of any number of concurrent readers performs at most one
reload in total (the final generation is `g₀` or `g₀ + 1`, never more),
the reload executes under the lock so no two threads are simultaneously
inside the locked section (mutual exclusion conjunct), a reader that
loses the race re-checks under the lock and skips the reload (there is
no second increment), and every reader that has completed received the
post-reload snapshot generation `g₀ + 1 ≥ g₀` — at least the generation
that existed at its call. Once any reader has completed, exactly one
reload has happened. -/
theorem single_flight (now la₀ : ℚ) (g₀ n : ℕ) (sched : List ℕ)
    (hstale : la₀ + TTL_SECONDS ≤ now) :
    (g₀ ≤ (run now sched (initConc la₀ g₀ n)).gen ∧
      (run now sched (initConc la₀ g₀ n)).gen ≤ g₀ + 1) ∧
    (∀ t th, (run now sched (initConc la₀ g₀ n)).threads.get? t = some th →
      th.pc = .done →
      th.obs = some (g₀ + 1) ∧
      (run now sched (initConc la₀ g₀ n)).gen = g₀ + 1) ∧
    (∀ t u tht thu,
      (run now sched (initConc la₀ g₀ n)).threads.get? t = some tht →
      (run now sched (initConc la₀ g₀ n)).threads.get? u = some thu →
      (tht.pc = .check2 ∨ tht.pc = .release) →
      (thu.pc = .check2 ∨ thu.pc = .release) → t = u) := by
  have hinv := run_preserves now la₀ g₀ hstale sched (initConc la₀ g₀ n)
    (initConc_inv now la₀ g₀ n)
  obtain ⟨hsnap, hlock, _, hdone⟩ := hinv
  refine ⟨?_, ?_, ?_⟩
  · rcases hsnap with ⟨hg, _⟩ | ⟨hg, _⟩ <;> rw [hg] <;> omega
  · exact fun t th hth hc => hdone t th hth hc
  · intro t u tht thu ht hu hct hcu
    have h1 := hlock t tht ht hct
    have h2 := hlock u thu hu hcu
    rw [h1] at h2
    exact Option.some.inj h2

/-- Witness for C9: two readers against a stale cache (`loadedAt = 0`,
accessed at `t = 600` with TTL 600), under an arbitrary concrete
schedule. -/
theorem single_flight_witness :
    (0 ≤ (run 600 [0, 0, 1, 0, 1, 0, 1, 1, 1] (initConc 0 0 2)).gen ∧
      (run 600 [0, 0, 1, 0, 1, 0, 1, 1, 1] (initConc 0 0 2)).gen ≤ 0 + 1) ∧
    (∀ t th,
      (run 600 [0, 0, 1, 0, 1, 0, 1, 1, 1] (initConc 0 0 2)).threads.get? t
        = some th →
      th.pc = .done →
      th.obs = some (0 + 1) ∧
      (run 600 [0, 0, 1, 0, 1, 0, 1, 1, 1] (initConc 0 0 2)).gen = 0 + 1) ∧
    (∀ t u tht thu,
      (run 600 [0, 0, 1, 0, 1, 0, 1, 1, 1] (initConc 0 0 2)).threads.get? t
        = some tht →
      (run 600 [0, 0, 1, 0, 1, 0, 1, 1, 1] (initConc 0 0 2)).threads.get? u
        = some thu →
      (tht.pc = .check2 ∨ tht.pc = .release) →
      (thu.pc = .check2 ∨ thu.pc = .release) → t = u) :=
  single_flight 600 0 0 2 [0, 0, 1, 0, 1, 0, 1, 1, 1]
    (by norm_num [TTL_SECONDS])

end NoteWorthy
